import Mathlib

/-!
Shallow embedding of the anime-episode notification subsystem of MyAnilist:
the notification store (`AnimeAiringNotification` rows), the scheduler
(`schedule_notifications_for_anime`), the dispatcher
(`send_pending_notifications` / `get_pending_notifications`), the reconciler
(`cancel_invalid_notifications`, `delete_old_notifications`), the follow
signal handlers, and the batch scheduling command.

Instants are modelled as `Int` seconds; hours are `* 3600`, days `* 86400`.
The database tables are modelled as Lean lists; Django queryset
`filter(...).update(...)` calls become list maps, `get_or_create` becomes a
conditional append with a fresh auto-increment primary key.
-/

namespace MyAnilist

/-- Notification status choices of `AnimeAiringNotification.STATUS_CHOICES`. -/
inductive Status where
  | pending
  | sent
  | failed
  | cancelled
deriving DecidableEq, Repr

/-- Watch-status choices of `AnimeFollow.WATCH_STATUS_CHOICES`. -/
inductive WatchStatus where
  | watching
  | completed
  | on_hold
  | dropped
  | plan_to_watch
deriving DecidableEq, Repr

/-- One `AnimeAiringNotification` row (fields used by the notification core;
the bookkeeping timestamps `created_at`/`updated_at` are not modelled since no
operation reads them). -/
structure Notification where
  notification_id : Nat
  user_id : Nat
  anilist_id : Nat
  episode_number : Nat
  airing_at : Int
  notify_at : Int
  status : Status
  sent_at : Option Int
  error_message : Option String
deriving DecidableEq, Repr

/-- One `AnimeFollow` row (fields read by the notification core). The
repository queries treat `notify_email` as a character field that is empty
when notifications are disabled. -/
structure Follow where
  user_id : Nat
  anilist_id : Nat
  notify_email : String
  watch_status : WatchStatus
deriving DecidableEq, Repr

/-- One `AnimeNotificationPreference` row. -/
structure Preference where
  user_id : Nat
  notify_before_hours : Int
  enabled : Bool
  notify_by_email : Bool
deriving DecidableEq, Repr

/-- Unique key of `AnimeAiringNotification.Meta.unique_together`:
`['user', 'anilist_id', 'episode_number']`. -/
def Notification.key (n : Notification) : Nat × Nat × Nat :=
  (n.user_id, n.anilist_id, n.episode_number)

/-- The hard uniqueness invariant on the store: no two rows share the
(user, show, episode) triple. -/
def uniqueKeys (store : List Notification) : Prop :=
  (store.map Notification.key).Nodup

/-- Primary-key uniqueness (`notification_id` is an `AutoField` pk). -/
def uniqueIds (store : List Notification) : Prop :=
  (store.map Notification.notification_id).Nodup

/-- Terminal statuses: `sent`, `failed`, `cancelled`. -/
def Status.isTerminal : Status → Bool
  | .pending => false
  | _ => true

/-- The `still_following` subquery used by `get_pending_notifications` and
`cancel_invalid_notifications`: an `AnimeFollow` for this (user, show) with
`watch_status='watching'`, excluding `notify_email=''`. -/
def isLiveFollow (follows : List Follow) (uid aid : Nat) : Bool :=
  follows.any fun f =>
    f.user_id == uid && f.anilist_id == aid &&
      f.watch_status == .watching && f.notify_email != ""

/-- Existence test behind `get_or_create`: some row already has this
(user, show, episode) key. -/
def hasKey (store : List Notification) (uid aid ep : Nat) : Bool :=
  store.any fun n =>
    n.user_id == uid && n.anilist_id == aid && n.episode_number == ep

/-- Auto-increment primary key: one more than the largest id in the table. -/
def freshId (store : List Notification) : Nat :=
  (store.map Notification.notification_id).foldr max 0 + 1

/-- `AnimeNotificationRepository.create_notification`: conditional insert via
`get_or_create` on the (user, show, episode) key with defaults
`airing_at`, `notify_at`, `status='pending'`.  Returns the new store and
whether a row was actually created (the source returns the instance only when
`created` is true). -/
def create_notification (store : List Notification) (uid aid ep : Nat)
    (airing_at notify_at : Int) : List Notification × Bool :=
  if hasKey store uid aid ep then (store, false)
  else
    (store ++ [{ notification_id := freshId store
                 user_id := uid
                 anilist_id := aid
                 episode_number := ep
                 airing_at := airing_at
                 notify_at := notify_at
                 status := .pending
                 sent_at := none
                 error_message := none }], true)

/-- Preference lookup for the join
`user__anime_notification_preference__notify_before_hours` (NULL when the
user has no preference row). -/
def prefHours (prefs : List Preference) (uid : Nat) : Option Int :=
  (prefs.find? fun p => p.user_id == uid).map Preference.notify_before_hours

/-- `AnimeNotificationRepository.get_active_followers_with_preferences`:
follows with non-empty `notify_email` and `watch_status='watching'`,
excluding users whose preference has `enabled=False` or
`notify_by_email=False`; yields (user_id, anilist_id, notify_before_hours?). -/
def get_active_followers_with_preferences (follows : List Follow)
    (prefs : List Preference) : List (Nat × Nat × Option Int) :=
  let disabled :=
    (prefs.filter fun p => !p.enabled || !p.notify_by_email).map Preference.user_id
  (follows.filter fun f =>
      f.notify_email != "" && f.watch_status == .watching &&
        !(disabled.contains f.user_id)).map
    fun f => (f.user_id, f.anilist_id, prefHours prefs f.user_id)

/-- Python truthiness in
`hours_before = notify_before_hours if notify_before_hours else 24`:
a NULL or zero preference falls back to the default 24. -/
def effectiveHours : Option Int → Int
  | none => 24
  | some h => if h = 0 then 24 else h

/-- Late-scheduling policy of `schedule_notifications_for_anime` lines
117-124: clamp `notify_at` to `now` when `notify_at < now < airing_at`;
otherwise skip (`none`) when `notify_at <= now`; otherwise keep `notify_at`. -/
def lateSchedulingDecision (airing_at notify_at now : Int) : Option Int :=
  if notify_at < now ∧ now < airing_at then some now
  else if notify_at ≤ now then none
  else some notify_at

/-- Result dictionary of `schedule_notifications_for_anime`. -/
structure ScheduleResult where
  success : Bool
  message : String
  scheduled : Nat
deriving DecidableEq, Repr

/-- Loop body of `schedule_notifications_for_anime` for one follower tuple:
skip followers of other shows, compute the naive notify time from the
effective lead hours, apply the late-scheduling policy, then conditionally
insert a pending row (counting only true creations). -/
def scheduleStep (anilist_id : Nat) (airing_at : Int) (episode : Nat) (now : Int)
    (acc : List Notification × Nat) (fo : Nat × Nat × Option Int) :
    List Notification × Nat :=
  let (store, count) := acc
  let (uid, followed_aid, hoursOpt) := fo
  if followed_aid ≠ anilist_id then (store, count)
  else
    let hours_before := effectiveHours hoursOpt
    let naive := airing_at - hours_before * 3600
    match lateSchedulingDecision airing_at naive now with
    | none => (store, count)
    | some notify_at =>
      let r := create_notification store uid anilist_id episode airing_at notify_at
      (r.1, if r.2 then count + 1 else count)

/-- `AnimeNotificationService.schedule_notifications_for_anime`.
`next_airing` models `anime_data.get('nextAiringEpisode')`; a missing or
falsy (zero) `airingAt`/`episode` yields the invalid-data no-op. -/
def schedule_notifications_for_anime (anilist_id : Nat)
    (next_airing : Option (Int × Nat)) (follows : List Follow)
    (prefs : List Preference) (now : Int) (store : List Notification) :
    List Notification × ScheduleResult :=
  match next_airing with
  | none => (store, ⟨false, "No upcoming episode", 0⟩)
  | some (airing_at, episode) =>
    if airing_at = 0 ∨ episode = 0 then
      (store, ⟨false, "Invalid airing data", 0⟩)
    else
      let followers := get_active_followers_with_preferences follows prefs
      let r := followers.foldl (scheduleStep anilist_id airing_at episode now) (store, 0)
      (r.1, ⟨true, "Scheduled", r.2⟩)

/-- Error message written by the auto-invalidation passes. -/
def autoCancelMsg : String := "User no longer following or watch_status changed"

/-- Row predicate of the due-set in `get_pending_notifications`:
pending and `notify_at <= now`. -/
def isDuePending (now : Int) (n : Notification) : Bool :=
  n.status == .pending && decide (n.notify_at ≤ now)

/-- `AnimeNotificationRepository.get_pending_notifications`: cancels
(in place) every pending-and-due row whose user is no longer a live
follower, then returns up to `limit` of the remaining pending-and-due rows.
Result is (updated store, returned due rows). -/
def get_pending_notifications (follows : List Follow) (now : Int) (limit : Nat)
    (store : List Notification) : List Notification × List Notification :=
  let store2 := store.map fun n =>
    if isDuePending now n && !(isLiveFollow follows n.user_id n.anilist_id) then
      { n with status := .cancelled, error_message := some autoCancelMsg }
    else n
  let due := (store2.filter fun n =>
    isDuePending now n && isLiveFollow follows n.user_id n.anilist_id).take limit
  (store2, due)

/-- Field updates of `update_notification_status` on the fetched row:
set `status`, set `sent_at` when the new status is `sent`, and set
`error_message` only when a truthy (non-empty) message is supplied. -/
def applyStatusUpdate (status : Status) (error_message : Option String)
    (now : Int) (n : Notification) : Notification :=
  { n with
    status := status
    sent_at := if status == Status.sent then some now else n.sent_at
    error_message :=
      match error_message with
      | some m => if m ≠ "" then some m else n.error_message
      | none => n.error_message }

/-- `AnimeNotificationRepository.update_notification_status`: fetch the row
by primary key and save the updated fields; a missing id is a no-op
(`DoesNotExist` returns None). -/
def update_notification_status (store : List Notification) (nid : Nat)
    (status : Status) (error_message : Option String) (now : Int) :
    List Notification :=
  match store with
  | [] => []
  | n :: rest =>
    if n.notification_id == nid then applyStatusUpdate status error_message now n :: rest
    else n :: update_notification_status rest nid status error_message now

/-- Outcome of the per-notification body of `send_pending_notifications`:
the mail send returned True, returned False, or some step raised an
exception with the given message. -/
inductive SendOutcome where
  | success
  | failure
  | raised (msg : String)
deriving DecidableEq, Repr

/-- Loop body of `send_pending_notifications` for one due notification. -/
def sendStep (now : Int) (outcome : Notification → SendOutcome)
    (acc : List Notification × Nat × Nat) (n : Notification) :
    List Notification × Nat × Nat :=
  let (store, sent_count, failed_count) := acc
  match outcome n with
  | .success =>
    (update_notification_status store n.notification_id .sent none now,
     sent_count + 1, failed_count)
  | .failure =>
    (update_notification_status store n.notification_id .failed
       (some "Failed to send email") now,
     sent_count, failed_count + 1)
  | .raised msg =>
    (update_notification_status store n.notification_id .failed (some msg) now,
     sent_count, failed_count + 1)

/-- Result dictionary of `send_pending_notifications`. -/
structure SendResult where
  sent : Nat
  failed : Nat
  total : Nat
deriving DecidableEq, Repr

/-- `AnimeNotificationService.send_pending_notifications`: fetch due pending
notifications with the fixed limit 100, attempt each one (an exception in a
per-item step is caught and recorded as `failed`), and report counts. -/
def send_pending_notifications (follows : List Follow)
    (outcome : Notification → SendOutcome) (now : Int)
    (store : List Notification) : List Notification × SendResult :=
  let fetched := get_pending_notifications follows now 100 store
  let r := fetched.2.foldl (sendStep now outcome) (fetched.1, 0, 0)
  (r.1, ⟨r.2.1, r.2.2, r.2.1 + r.2.2⟩)

/-- Deletion predicate of `delete_old_notifications`:
`Q(status='cancelled') | Q(status='sent', airing_at__lt=cutoff_date)`. -/
def retentionDelete (cutoff : Int) (n : Notification) : Bool :=
  n.status == .cancelled || (n.status == .sent && decide (n.airing_at < cutoff))

/-- `AnimeNotificationRepository.delete_old_notifications`: delete every
cancelled row and every sent row whose `airing_at` is before
`now - days`; returns (kept rows, number deleted). -/
def delete_old_notifications (now : Int) (days : Int)
    (store : List Notification) : List Notification × Nat :=
  let cutoff := now - days * 86400
  ((store.filter fun n => !(retentionDelete cutoff n)),
   (store.filter fun n => retentionDelete cutoff n).length)

/-- `AnimeNotificationRepository.cancel_notifications_for_anime`: set
`status='cancelled'` on every pending row of this (user, show); the source
updates only `status` and `updated_at` (no error message). -/
def cancel_notifications_for_anime (uid aid : Nat)
    (store : List Notification) : List Notification × Nat :=
  let hit := fun n : Notification =>
    n.user_id == uid && n.anilist_id == aid && n.status == Status.pending
  ((store.map fun n => if hit n then { n with status := .cancelled } else n),
   (store.filter hit).length)

/-- `AnimeNotificationRepository.cancel_invalid_notifications`: cancel every
pending row whose (user, show) is no longer a live follow, recording the
auto-cancel error message; returns (updated store, count cancelled). -/
def cancel_invalid_notifications (follows : List Follow)
    (store : List Notification) : List Notification × Nat :=
  let invalid := fun n : Notification =>
    n.status == Status.pending && !(isLiveFollow follows n.user_id n.anilist_id)
  ((store.map fun n =>
      if invalid n then { n with status := .cancelled, error_message := some autoCancelMsg }
      else n),
   (store.filter invalid).length)

/-- `AnimeNotificationService.cleanup_old_notifications`: reconciler sweep,
`cancel_invalid_notifications` then `delete_old_notifications`. -/
def cleanup_old_notifications (follows : List Follow) (now : Int) (days : Int)
    (store : List Notification) : List Notification × Nat × Nat :=
  let c := cancel_invalid_notifications follows store
  let d := delete_old_notifications now days c.1
  (d.1, c.2, d.2)

/-- Signal `cancel_notifications_on_unfollow` (post_delete on AnimeFollow):
cancel every pending row of the unfollowed (user, show) with error message
"User unfollowed anime". -/
def cancel_notifications_on_unfollow (uid aid : Nat)
    (store : List Notification) : List Notification :=
  store.map fun n =>
    if n.user_id == uid && n.anilist_id == aid && n.status == Status.pending then
      { n with status := .cancelled, error_message := some "User unfollowed anime" }
    else n

/-- Signal `handle_anime_follow_changes` (post_save on AnimeFollow), with the
old field values captured by the pre_save hook passed explicitly: a creation
only logs; on an update, cancel the pending rows of this (user, show) with
"User disabled email notifications" exactly when the old `notify_email` was
truthy (non-empty) and the new one is empty; every other change (including
any `watch_status` change) only logs. -/
def handle_anime_follow_changes (created : Bool)
    (old_notify_email : Option String) (_old_watch_status : Option WatchStatus)
    (inst : Follow) (store : List Notification) : List Notification :=
  if created then store
  else
    let old_email_truthy :=
      match old_notify_email with
      | some m => m != ""
      | none => false
    if old_email_truthy && inst.notify_email == "" then
      store.map fun n =>
        if n.user_id == inst.user_id && n.anilist_id == inst.anilist_id &&
            n.status == Status.pending then
          { n with status := .cancelled,
                   error_message := some "User disabled email notifications" }
        else n
    else store

/-- First-occurrence model of the SQL `DISTINCT` over the follow rows. -/
def distinctKeepFirst (l : List Nat) : List Nat :=
  l.foldl (fun acc a => if acc.contains a then acc else acc ++ [a]) []

/-- Enumeration of `Command.handle` in `schedule_anime_notifications`:
distinct `anilist_id` of follows with a non-empty `notify_email`
(no watch-status filter), truncated to `limit`. -/
def followed_anime_ids (follows : List Follow) (limit : Nat) : List Nat :=
  (distinctKeepFirst
    ((follows.filter fun f => f.notify_email != "").map Follow.anilist_id)).take limit

/-- Observable state of the `Command.handle` loop: every show id the loop
iterated over, how many completed without an exception, and the scheduled
total. -/
structure HandleResult where
  attempted : List Nat
  processed : Nat
  total_scheduled : Nat
deriving DecidableEq, Repr

/-- Loop body of `Command.handle`: call the per-show scheduling service in a
try block; an exception is logged and the loop moves on to the next show. -/
def handleStep (runOne : Nat → Except String ScheduleResult)
    (acc : HandleResult) (aid : Nat) : HandleResult :=
  match runOne aid with
  | .ok r =>
    { attempted := acc.attempted ++ [aid]
      processed := acc.processed + 1
      total_scheduled :=
        acc.total_scheduled + (if r.success && decide (0 < r.scheduled) then r.scheduled else 0) }
  | .error _ =>
    { acc with attempted := acc.attempted ++ [aid] }

/-- `Command.handle` of `schedule_anime_notifications`: enumerate followed
show ids (bounded by `limit`, default 100) and run per-show scheduling for
each, catching per-show failures. -/
def schedule_command_handle (follows : List Follow) (limit : Nat)
    (runOne : Nat → Except String ScheduleResult) : HandleResult :=
  (followed_anime_ids follows limit).foldl (handleStep runOne) ⟨[], 0, 0⟩

/-- Every store-mutating operation of the subsystem, with its inputs. -/
inductive Op where
  | schedule (anilist_id : Nat) (next_airing : Option (Int × Nat))
      (follows : List Follow) (prefs : List Preference) (now : Int)
  | getDue (follows : List Follow) (now : Int) (limit : Nat)
  | dispatch (follows : List Follow) (outcome : Notification → SendOutcome) (now : Int)
  | reconcile (follows : List Follow)
  | retention (now days : Int)
  | sweep (follows : List Follow) (now days : Int)
  | unfollow (uid aid : Nat)
  | followChanged (created : Bool) (old_email : Option String)
      (old_status : Option WatchStatus) (f : Follow)
  | cancelForAnime (uid aid : Nat)

/-- Effect of one operation on the notification store. -/
def applyOp : Op → List Notification → List Notification
  | .schedule aid next follows prefs now, s =>
    (schedule_notifications_for_anime aid next follows prefs now s).1
  | .getDue follows now limit, s => (get_pending_notifications follows now limit s).1
  | .dispatch follows outcome now, s => (send_pending_notifications follows outcome now s).1
  | .reconcile follows, s => (cancel_invalid_notifications follows s).1
  | .retention now days, s => (delete_old_notifications now days s).1
  | .sweep follows now days, s => (cleanup_old_notifications follows now days s).1
  | .unfollow uid aid, s => cancel_notifications_on_unfollow uid aid s
  | .followChanged c oe os f, s => handle_anime_follow_changes c oe os f s
  | .cancelForAnime uid aid, s => (cancel_notifications_for_anime uid aid s).1

/-- Effect of a sequence of operations on the notification store. -/
def applyOps (ops : List Op) (s : List Notification) : List Notification :=
  ops.foldl (fun t op => applyOp op t) s

/-! ### Generic store lemmas -/

theorem mem_eq_of_uniqueIds {s : List Notification} (h : uniqueIds s)
    {a b : Notification} (ha : a ∈ s) (hb : b ∈ s)
    (hid : a.notification_id = b.notification_id) : a = b :=
  List.inj_on_of_nodup_map h ha hb hid

theorem uniqueKeys_of_map_key_eq {s s2 : List Notification}
    (h : s2.map Notification.key = s.map Notification.key)
    (hs : uniqueKeys s) : uniqueKeys s2 := by
  unfold uniqueKeys at hs ⊢
  rw [h]
  exact hs

theorem uniqueIds_of_map_id_eq {s s2 : List Notification}
    (h : s2.map Notification.notification_id = s.map Notification.notification_id)
    (hs : uniqueIds s) : uniqueIds s2 := by
  unfold uniqueIds at hs ⊢
  rw [h]
  exact hs

theorem map_key_map {g : Notification → Notification}
    (hg : ∀ n, (g n).key = n.key) (s : List Notification) :
    (s.map g).map Notification.key = s.map Notification.key := by
  rw [List.map_map]
  exact List.map_congr_left fun a _ => hg a

theorem map_id_map {g : Notification → Notification}
    (hg : ∀ n, (g n).notification_id = n.notification_id) (s : List Notification) :
    (s.map g).map Notification.notification_id = s.map Notification.notification_id := by
  rw [List.map_map]
  exact List.map_congr_left fun a _ => hg a

theorem le_foldr_max {l : List Nat} {x : Nat} (h : x ∈ l) : x ≤ l.foldr max 0 := by
  induction l with
  | nil => cases h
  | cons a t ih =>
    simp only [List.foldr_cons]
    rcases List.mem_cons.1 h with rfl | h2
    · exact Nat.le_max_left _ _
    · exact le_trans (ih h2) (Nat.le_max_right _ _)

theorem notification_id_lt_freshId {s : List Notification} {n : Notification}
    (h : n ∈ s) : n.notification_id < freshId s := by
  unfold freshId
  have := le_foldr_max (List.mem_map_of_mem Notification.notification_id h)
  omega

theorem hasKey_iff {store : List Notification} {uid aid ep : Nat} :
    hasKey store uid aid ep = true ↔
      (uid, aid, ep) ∈ store.map Notification.key := by
  unfold hasKey
  simp only [List.any_eq_true, Bool.and_eq_true, beq_iff_eq, List.mem_map,
    Notification.key, Prod.mk.injEq]
  constructor
  · rintro ⟨n, hn, h⟩
    exact ⟨n, hn, by tauto⟩
  · rintro ⟨n, hn, h⟩
    exact ⟨n, hn, by tauto⟩

/-! ### create_notification -/

theorem create_notification_of_hasKey {store : List Notification}
    {uid aid ep : Nat} {airing notify : Int}
    (h : hasKey store uid aid ep = true) :
    create_notification store uid aid ep airing notify = (store, false) := by
  unfold create_notification
  simp [h]

theorem create_notification_of_not_hasKey {store : List Notification}
    {uid aid ep : Nat} {airing notify : Int}
    (h : ¬ hasKey store uid aid ep = true) :
    create_notification store uid aid ep airing notify =
      (store ++ [{ notification_id := freshId store, user_id := uid,
                   anilist_id := aid, episode_number := ep,
                   airing_at := airing, notify_at := notify,
                   status := .pending, sent_at := none,
                   error_message := none }], true) := by
  unfold create_notification
  simp [h]

theorem create_notification_uniqueKeys {store : List Notification}
    {uid aid ep : Nat} {airing notify : Int} (h : uniqueKeys store) :
    uniqueKeys (create_notification store uid aid ep airing notify).1 := by
  by_cases hk : hasKey store uid aid ep = true
  · rw [create_notification_of_hasKey hk]
    exact h
  · rw [create_notification_of_not_hasKey hk]
    unfold uniqueKeys at h ⊢
    rw [List.map_append]
    rw [List.nodup_append]
    refine ⟨h, List.nodup_singleton _, ?_⟩
    intro k hk1 hk2
    simp only [List.map_cons, List.map_nil, List.mem_singleton] at hk2
    subst hk2
    exact hk (hasKey_iff.2 hk1)

theorem create_notification_uniqueIds {store : List Notification}
    {uid aid ep : Nat} {airing notify : Int} (h : uniqueIds store) :
    uniqueIds (create_notification store uid aid ep airing notify).1 := by
  by_cases hk : hasKey store uid aid ep = true
  · rw [create_notification_of_hasKey hk]
    exact h
  · rw [create_notification_of_not_hasKey hk]
    unfold uniqueIds at h ⊢
    rw [List.map_append, List.nodup_append]
    refine ⟨h, List.nodup_singleton _, ?_⟩
    intro i hi1 hi2
    simp only [List.map_cons, List.map_nil, List.mem_singleton] at hi2
    subst hi2
    obtain ⟨n, hn, hid⟩ := List.mem_map.1 hi1
    have := notification_id_lt_freshId hn
    omega

/-! ### applyStatusUpdate field lemmas -/

theorem applyStatusUpdate_key (st : Status) (em : Option String) (now : Int)
    (n : Notification) : (applyStatusUpdate st em now n).key = n.key := rfl

theorem applyStatusUpdate_notification_id (st : Status) (em : Option String)
    (now : Int) (n : Notification) :
    (applyStatusUpdate st em now n).notification_id = n.notification_id := rfl

theorem applyStatusUpdate_status (st : Status) (em : Option String)
    (now : Int) (n : Notification) : (applyStatusUpdate st em now n).status = st := rfl

theorem applyStatusUpdate_sent_at (st : Status) (em : Option String)
    (now : Int) (n : Notification) :
    (applyStatusUpdate st em now n).sent_at =
      if st == Status.sent then some now else n.sent_at := rfl

theorem applyStatusUpdate_error_message (st : Status) (em : Option String)
    (now : Int) (n : Notification) :
    (applyStatusUpdate st em now n).error_message =
      match em with
      | some m => if m ≠ "" then some m else n.error_message
      | none => n.error_message := rfl

/-! ### update_notification_status lemmas -/

theorem upd_map_key (s : List Notification) (nid : Nat) (st : Status)
    (em : Option String) (now : Int) :
    (update_notification_status s nid st em now).map Notification.key =
      s.map Notification.key := by
  induction s with
  | nil => rfl
  | cons a t ih =>
    unfold update_notification_status
    split
    · simp [applyStatusUpdate_key]
    · simp only [List.map_cons, ih]

theorem upd_map_id (s : List Notification) (nid : Nat) (st : Status)
    (em : Option String) (now : Int) :
    (update_notification_status s nid st em now).map Notification.notification_id =
      s.map Notification.notification_id := by
  induction s with
  | nil => rfl
  | cons a t ih =>
    unfold update_notification_status
    split
    · simp [applyStatusUpdate_notification_id]
    · simp only [List.map_cons, ih]

theorem upd_mem_of_ne {s : List Notification} {r : Notification} {nid : Nat}
    (st : Status) (em : Option String) (now : Int)
    (hr : r ∈ s) (hne : r.notification_id ≠ nid) :
    r ∈ update_notification_status s nid st em now := by
  induction s with
  | nil => cases hr
  | cons a t ih =>
    unfold update_notification_status
    by_cases ha : (a.notification_id == nid) = true
    · rw [if_pos ha]
      rcases List.mem_cons.1 hr with h1 | h2
      · exact absurd (h1 ▸ beq_iff_eq.1 ha) hne
      · exact List.mem_cons_of_mem _ h2
    · rw [if_neg ha]
      rcases List.mem_cons.1 hr with h1 | h2
      · rw [h1]
        exact List.mem_cons_self _ _
      · exact List.mem_cons_of_mem _ (ih h2)

theorem upd_mem_other {s : List Notification} {r2 : Notification} {nid : Nat}
    {st : Status} {em : Option String} {now : Int}
    (hr2 : r2 ∈ update_notification_status s nid st em now)
    (hne : r2.notification_id ≠ nid) : r2 ∈ s := by
  induction s with
  | nil => cases hr2
  | cons a t ih =>
    unfold update_notification_status at hr2
    by_cases ha : (a.notification_id == nid) = true
    · rw [if_pos ha] at hr2
      rcases List.mem_cons.1 hr2 with h1 | h2
      · exfalso
        apply hne
        rw [h1, applyStatusUpdate_notification_id]
        exact beq_iff_eq.1 ha
      · exact List.mem_cons_of_mem _ h2
    · rw [if_neg ha] at hr2
      rcases List.mem_cons.1 hr2 with h1 | h2
      · rw [h1]
        exact List.mem_cons_self _ _
      · exact List.mem_cons_of_mem _ (ih h2)

theorem upd_target_eq {s : List Notification} {d : Notification} {nid : Nat}
    {st : Status} {em : Option String} {now : Int}
    (hs : uniqueIds s) (hd : d ∈ s) (hdid : d.notification_id = nid) :
    ∀ r2 ∈ update_notification_status s nid st em now,
      r2.notification_id = nid → r2 = applyStatusUpdate st em now d := by
  induction s with
  | nil => cases hd
  | cons a t ih =>
    simp only [uniqueIds, List.map_cons, List.nodup_cons] at hs
    obtain ⟨hanot, hs2⟩ := hs
    intro r2 hr2 hr2id
    unfold update_notification_status at hr2
    by_cases ha : (a.notification_id == nid) = true
    · have haid : a.notification_id = nid := beq_iff_eq.1 ha
      have hda : d = a := by
        rcases List.mem_cons.1 hd with h1 | h2
        · exact h1
        · exfalso
          apply hanot
          have hmem : d.notification_id ∈ t.map Notification.notification_id :=
            List.mem_map_of_mem _ h2
          rw [hdid, ← haid] at hmem
          exact hmem
      rw [if_pos ha] at hr2
      rcases List.mem_cons.1 hr2 with h1 | h2
      · rw [h1, hda]
      · exfalso
        apply hanot
        have hmem : r2.notification_id ∈ t.map Notification.notification_id :=
          List.mem_map_of_mem _ h2
        rw [hr2id, ← haid] at hmem
        exact hmem
    · have haid : a.notification_id ≠ nid := by simpa using ha
      have hdt : d ∈ t := by
        rcases List.mem_cons.1 hd with h1 | h2
        · exact absurd (h1 ▸ hdid) haid
        · exact h2
      rw [if_neg ha] at hr2
      rcases List.mem_cons.1 hr2 with h1 | h2
      · exact absurd (h1 ▸ hr2id) haid
      · exact ih hs2 hdt r2 h2 hr2id

theorem upd_target_mem {s : List Notification} {d : Notification} {nid : Nat}
    (st : Status) (em : Option String) (now : Int)
    (hs : uniqueIds s) (hd : d ∈ s) (hdid : d.notification_id = nid) :
    applyStatusUpdate st em now d ∈ update_notification_status s nid st em now := by
  induction s with
  | nil => cases hd
  | cons a t ih =>
    simp only [uniqueIds, List.map_cons, List.nodup_cons] at hs
    obtain ⟨hanot, hs2⟩ := hs
    unfold update_notification_status
    by_cases ha : (a.notification_id == nid) = true
    · have haid : a.notification_id = nid := beq_iff_eq.1 ha
      have hda : d = a := by
        rcases List.mem_cons.1 hd with h1 | h2
        · exact h1
        · exfalso
          apply hanot
          have hmem : d.notification_id ∈ t.map Notification.notification_id :=
            List.mem_map_of_mem _ h2
          rw [hdid, ← haid] at hmem
          exact hmem
      rw [if_pos ha, hda]
      exact List.mem_cons_self _ _
    · have haid : a.notification_id ≠ nid := by simpa using ha
      have hdt : d ∈ t := by
        rcases List.mem_cons.1 hd with h1 | h2
        · exact absurd (h1 ▸ hdid) haid
        · exact h2
      rw [if_neg ha]
      exact List.mem_cons_of_mem _ (ih hs2 hdt)

/-! ### Map-key / map-id preservation of each operation -/

theorem getDue_store_map_key (follows : List Follow) (now : Int) (limit : Nat)
    (s : List Notification) :
    ((get_pending_notifications follows now limit s).1).map Notification.key =
      s.map Notification.key := by
  unfold get_pending_notifications
  dsimp only
  apply map_key_map
  intro n
  dsimp only
  split <;> rfl

theorem getDue_store_map_id (follows : List Follow) (now : Int) (limit : Nat)
    (s : List Notification) :
    ((get_pending_notifications follows now limit s).1).map Notification.notification_id =
      s.map Notification.notification_id := by
  unfold get_pending_notifications
  dsimp only
  apply map_id_map
  intro n
  dsimp only
  split <;> rfl

theorem sendStep_map_key (now : Int) (outcome : Notification → SendOutcome)
    (acc : List Notification × Nat × Nat) (n : Notification) :
    ((sendStep now outcome acc n).1).map Notification.key =
      acc.1.map Notification.key := by
  obtain ⟨s, a, b⟩ := acc
  unfold sendStep
  cases h : outcome n <;> dsimp only <;> rw [upd_map_key]

theorem sendStep_map_id (now : Int) (outcome : Notification → SendOutcome)
    (acc : List Notification × Nat × Nat) (n : Notification) :
    ((sendStep now outcome acc n).1).map Notification.notification_id =
      acc.1.map Notification.notification_id := by
  obtain ⟨s, a, b⟩ := acc
  unfold sendStep
  cases h : outcome n <;> dsimp only <;> rw [upd_map_id]

theorem sendLoop_map_key (now : Int) (outcome : Notification → SendOutcome)
    (L : List Notification) :
    ∀ acc : List Notification × Nat × Nat,
      ((L.foldl (sendStep now outcome) acc).1).map Notification.key =
        acc.1.map Notification.key := by
  induction L with
  | nil => intro acc; rfl
  | cons n t ih =>
    intro acc
    rw [List.foldl_cons, ih, sendStep_map_key]

theorem sendLoop_map_id (now : Int) (outcome : Notification → SendOutcome)
    (L : List Notification) :
    ∀ acc : List Notification × Nat × Nat,
      ((L.foldl (sendStep now outcome) acc).1).map Notification.notification_id =
        acc.1.map Notification.notification_id := by
  induction L with
  | nil => intro acc; rfl
  | cons n t ih =>
    intro acc
    rw [List.foldl_cons, ih, sendStep_map_id]

theorem cancel_invalid_map_key (follows : List Follow) (s : List Notification) :
    ((cancel_invalid_notifications follows s).1).map Notification.key =
      s.map Notification.key := by
  unfold cancel_invalid_notifications
  dsimp only
  apply map_key_map
  intro n
  dsimp only
  split <;> rfl

theorem cancel_invalid_map_id (follows : List Follow) (s : List Notification) :
    ((cancel_invalid_notifications follows s).1).map Notification.notification_id =
      s.map Notification.notification_id := by
  unfold cancel_invalid_notifications
  dsimp only
  apply map_id_map
  intro n
  dsimp only
  split <;> rfl

theorem cancel_for_anime_map_key (uid aid : Nat) (s : List Notification) :
    ((cancel_notifications_for_anime uid aid s).1).map Notification.key =
      s.map Notification.key := by
  unfold cancel_notifications_for_anime
  dsimp only
  apply map_key_map
  intro n
  dsimp only
  split <;> rfl

theorem cancel_for_anime_map_id (uid aid : Nat) (s : List Notification) :
    ((cancel_notifications_for_anime uid aid s).1).map Notification.notification_id =
      s.map Notification.notification_id := by
  unfold cancel_notifications_for_anime
  dsimp only
  apply map_id_map
  intro n
  dsimp only
  split <;> rfl

theorem unfollow_map_key (uid aid : Nat) (s : List Notification) :
    (cancel_notifications_on_unfollow uid aid s).map Notification.key =
      s.map Notification.key := by
  unfold cancel_notifications_on_unfollow
  apply map_key_map
  intro n
  dsimp only
  split <;> rfl

theorem unfollow_map_id (uid aid : Nat) (s : List Notification) :
    (cancel_notifications_on_unfollow uid aid s).map Notification.notification_id =
      s.map Notification.notification_id := by
  unfold cancel_notifications_on_unfollow
  apply map_id_map
  intro n
  dsimp only
  split <;> rfl

theorem follow_changes_map_key (c : Bool) (oe : Option String)
    (os : Option WatchStatus) (f : Follow) (s : List Notification) :
    (handle_anime_follow_changes c oe os f s).map Notification.key =
      s.map Notification.key := by
  unfold handle_anime_follow_changes
  split
  · rfl
  · dsimp only
    split
    · apply map_key_map
      intro n
      dsimp only
      split <;> rfl
    · rfl

theorem follow_changes_map_id (c : Bool) (oe : Option String)
    (os : Option WatchStatus) (f : Follow) (s : List Notification) :
    (handle_anime_follow_changes c oe os f s).map Notification.notification_id =
      s.map Notification.notification_id := by
  unfold handle_anime_follow_changes
  split
  · rfl
  · dsimp only
    split
    · apply map_id_map
      intro n
      dsimp only
      split <;> rfl
    · rfl

theorem retention_uniqueKeys {now days : Int} {s : List Notification}
    (h : uniqueKeys s) : uniqueKeys (delete_old_notifications now days s).1 := by
  unfold delete_old_notifications
  dsimp only
  exact List.Nodup.sublist ((List.filter_sublist s).map _) h

theorem retention_uniqueIds {now days : Int} {s : List Notification}
    (h : uniqueIds s) : uniqueIds (delete_old_notifications now days s).1 := by
  unfold delete_old_notifications
  dsimp only
  exact List.Nodup.sublist ((List.filter_sublist s).map _) h

/-! ### Scheduling loop invariants -/

theorem scheduleStep_uniqueKeys {aid : Nat} {a : Int} {ep : Nat} {now : Int}
    (acc : List Notification × Nat) (fo : Nat × Nat × Option Int)
    (h : uniqueKeys acc.1) : uniqueKeys (scheduleStep aid a ep now acc fo).1 := by
  obtain ⟨s, c⟩ := acc
  obtain ⟨uid, faid, hrs⟩ := fo
  unfold scheduleStep
  dsimp only
  split
  · exact h
  · cases hdec : lateSchedulingDecision a (a - effectiveHours hrs * 3600) now with
    | none => exact h
    | some na => exact create_notification_uniqueKeys h

theorem scheduleStep_uniqueIds {aid : Nat} {a : Int} {ep : Nat} {now : Int}
    (acc : List Notification × Nat) (fo : Nat × Nat × Option Int)
    (h : uniqueIds acc.1) : uniqueIds (scheduleStep aid a ep now acc fo).1 := by
  obtain ⟨s, c⟩ := acc
  obtain ⟨uid, faid, hrs⟩ := fo
  unfold scheduleStep
  dsimp only
  split
  · exact h
  · cases hdec : lateSchedulingDecision a (a - effectiveHours hrs * 3600) now with
    | none => exact h
    | some na => exact create_notification_uniqueIds h

theorem scheduleLoop_uniqueKeys (aid : Nat) (a : Int) (ep : Nat) (now : Int)
    (L : List (Nat × Nat × Option Int)) :
    ∀ (s : List Notification) (c : Nat), uniqueKeys s →
      uniqueKeys (L.foldl (scheduleStep aid a ep now) (s, c)).1 := by
  induction L with
  | nil => intro s c h; exact h
  | cons fo t ih =>
    intro s c h
    rw [List.foldl_cons]
    exact ih _ _ (scheduleStep_uniqueKeys (s, c) fo h)

theorem scheduleLoop_uniqueIds (aid : Nat) (a : Int) (ep : Nat) (now : Int)
    (L : List (Nat × Nat × Option Int)) :
    ∀ (s : List Notification) (c : Nat), uniqueIds s →
      uniqueIds (L.foldl (scheduleStep aid a ep now) (s, c)).1 := by
  induction L with
  | nil => intro s c h; exact h
  | cons fo t ih =>
    intro s c h
    rw [List.foldl_cons]
    exact ih _ _ (scheduleStep_uniqueIds (s, c) fo h)

/-! ### Invariant preservation by every operation -/

theorem applyOp_uniqueKeys (op : Op) (s : List Notification)
    (h : uniqueKeys s) : uniqueKeys (applyOp op s) := by
  cases op with
  | schedule aid next follows prefs now =>
    unfold applyOp schedule_notifications_for_anime
    cases next with
    | none => exact h
    | some p =>
      obtain ⟨a, ep⟩ := p
      dsimp only
      split
      · exact h
      · exact scheduleLoop_uniqueKeys aid a ep now _ s 0 h
  | getDue follows now limit =>
    exact uniqueKeys_of_map_key_eq (getDue_store_map_key follows now limit s) h
  | dispatch follows outcome now =>
    have h1 := getDue_store_map_key follows now 100 s
    have h2 := sendLoop_map_key now outcome
      (get_pending_notifications follows now 100 s).2
      ((get_pending_notifications follows now 100 s).1, 0, 0)
    exact uniqueKeys_of_map_key_eq (h2.trans h1) h
  | reconcile follows =>
    exact uniqueKeys_of_map_key_eq (cancel_invalid_map_key follows s) h
  | retention now days => exact retention_uniqueKeys h
  | sweep follows now days =>
    exact retention_uniqueKeys
      (uniqueKeys_of_map_key_eq (cancel_invalid_map_key follows s) h)
  | unfollow uid aid =>
    exact uniqueKeys_of_map_key_eq (unfollow_map_key uid aid s) h
  | followChanged c oe os f =>
    exact uniqueKeys_of_map_key_eq (follow_changes_map_key c oe os f s) h
  | cancelForAnime uid aid =>
    exact uniqueKeys_of_map_key_eq (cancel_for_anime_map_key uid aid s) h

theorem applyOp_uniqueIds (op : Op) (s : List Notification)
    (h : uniqueIds s) : uniqueIds (applyOp op s) := by
  cases op with
  | schedule aid next follows prefs now =>
    unfold applyOp schedule_notifications_for_anime
    cases next with
    | none => exact h
    | some p =>
      obtain ⟨a, ep⟩ := p
      dsimp only
      split
      · exact h
      · exact scheduleLoop_uniqueIds aid a ep now _ s 0 h
  | getDue follows now limit =>
    exact uniqueIds_of_map_id_eq (getDue_store_map_id follows now limit s) h
  | dispatch follows outcome now =>
    have h1 := getDue_store_map_id follows now 100 s
    have h2 := sendLoop_map_id now outcome
      (get_pending_notifications follows now 100 s).2
      ((get_pending_notifications follows now 100 s).1, 0, 0)
    exact uniqueIds_of_map_id_eq (h2.trans h1) h
  | reconcile follows =>
    exact uniqueIds_of_map_id_eq (cancel_invalid_map_id follows s) h
  | retention now days => exact retention_uniqueIds h
  | sweep follows now days =>
    exact retention_uniqueIds
      (uniqueIds_of_map_id_eq (cancel_invalid_map_id follows s) h)
  | unfollow uid aid =>
    exact uniqueIds_of_map_id_eq (unfollow_map_id uid aid s) h
  | followChanged c oe os f =>
    exact uniqueIds_of_map_id_eq (follow_changes_map_id c oe os f s) h
  | cancelForAnime uid aid =>
    exact uniqueIds_of_map_id_eq (cancel_for_anime_map_id uid aid s) h

theorem applyOps_uniqueKeys (ops : List Op) :
    ∀ s : List Notification, uniqueKeys s → uniqueKeys (applyOps ops s) := by
  induction ops with
  | nil => intro s h; exact h
  | cons op t ih =>
    intro s h
    exact ih _ (applyOp_uniqueKeys op s h)

/-- C1: uniqueness invariant — starting from the empty store, any sequence of
the subsystem's operations (scheduling included, run any number of times)
leaves at most one AiringNotification row per (user, show, episode) triple,
and every single operation preserves that invariant. -/
theorem c1_uniqueness_invariant :
    (∀ ops : List Op, uniqueKeys (applyOps ops [])) ∧
    (∀ (op : Op) (s : List Notification), uniqueKeys s → uniqueKeys (applyOp op s)) :=
  ⟨fun ops => applyOps_uniqueKeys ops [] List.Pairwise.nil, applyOp_uniqueKeys⟩

/-- Witness for C1: the preservation half applied at a concrete operation on a
concrete one-row store. -/
theorem c1_uniqueness_invariant_witness :
    uniqueKeys (applyOp (Op.cancelForAnime 1 2)
      [{ notification_id := 1, user_id := 1, anilist_id := 2, episode_number := 3,
         airing_at := 100, notify_at := 50, status := .pending,
         sent_at := none, error_message := none }]) :=
  c1_uniqueness_invariant.2 (Op.cancelForAnime 1 2) _ (by unfold uniqueKeys; decide)

/-! ### Idempotency of the scheduler -/

theorem hasKey_append {s t : List Notification} {u a e : Nat}
    (h : hasKey s u a e = true) : hasKey (s ++ t) u a e = true := by
  unfold hasKey at h ⊢
  rw [List.any_append, h, Bool.true_or]

theorem create_sets_hasKey (s : List Notification) (u a e : Nat)
    (air ntf : Int) :
    hasKey (create_notification s u a e air ntf).1 u a e = true := by
  by_cases hk : hasKey s u a e = true
  · rw [create_notification_of_hasKey hk]
    exact hk
  · rw [create_notification_of_not_hasKey hk]
    dsimp only
    unfold hasKey
    rw [List.any_append]
    simp

theorem create_mono_hasKey {s : List Notification} {u a e : Nat}
    (u2 a2 e2 : Nat) (air ntf : Int) (h : hasKey s u a e = true) :
    hasKey (create_notification s u2 a2 e2 air ntf).1 u a e = true := by
  by_cases hk : hasKey s u2 a2 e2 = true
  · rw [create_notification_of_hasKey hk]
    exact h
  · rw [create_notification_of_not_hasKey hk]
    exact hasKey_append h

theorem scheduleStep_mono_hasKey {aid : Nat} {a : Int} {ep : Nat} {now : Int}
    {acc : List Notification × Nat} {u aa e : Nat}
    (fo : Nat × Nat × Option Int) (h : hasKey acc.1 u aa e = true) :
    hasKey (scheduleStep aid a ep now acc fo).1 u aa e = true := by
  obtain ⟨s, c⟩ := acc
  obtain ⟨uid, faid, hrs⟩ := fo
  unfold scheduleStep
  dsimp only
  split
  · exact h
  · cases hdec : lateSchedulingDecision a (a - effectiveHours hrs * 3600) now with
    | none => exact h
    | some na => exact create_mono_hasKey _ _ _ _ _ h

theorem scheduleLoop_mono_hasKey {aid : Nat} {a : Int} {ep : Nat} {now : Int}
    {u aa e : Nat} (L : List (Nat × Nat × Option Int)) :
    ∀ acc : List Notification × Nat, hasKey acc.1 u aa e = true →
      hasKey (L.foldl (scheduleStep aid a ep now) acc).1 u aa e = true := by
  induction L with
  | nil => intro acc h; exact h
  | cons fo t ih =>
    intro acc h
    rw [List.foldl_cons]
    exact ih _ (scheduleStep_mono_hasKey fo h)

theorem scheduleStep_creates_hasKey {aid : Nat} {a : Int} {ep : Nat} {now : Int}
    {s : List Notification} {c uid : Nat} {hrs : Option Int} {na : Int}
    (hdec : lateSchedulingDecision a (a - effectiveHours hrs * 3600) now = some na) :
    hasKey (scheduleStep aid a ep now (s, c) (uid, aid, hrs)).1 uid aid ep = true := by
  unfold scheduleStep
  dsimp only
  rw [if_neg (fun hh => hh rfl), hdec]
  dsimp only
  exact create_sets_hasKey s uid aid ep a na

theorem scheduleLoop_creates {aid : Nat} {a : Int} {ep : Nat} {now : Int}
    (L : List (Nat × Nat × Option Int)) :
    ∀ (s : List Notification) (c uid : Nat) (hrs : Option Int) (na : Int),
      (uid, aid, hrs) ∈ L →
      lateSchedulingDecision a (a - effectiveHours hrs * 3600) now = some na →
      hasKey (L.foldl (scheduleStep aid a ep now) (s, c)).1 uid aid ep = true := by
  induction L with
  | nil =>
    intro s c uid hrs na hmem
    cases hmem
  | cons fo t ih =>
    intro s c uid hrs na hmem hdec
    rw [List.foldl_cons]
    rcases List.mem_cons.1 hmem with h1 | h2
    · subst h1
      exact scheduleLoop_mono_hasKey t _ (scheduleStep_creates_hasKey hdec)
    · exact ih _ _ uid hrs na h2 hdec

theorem scheduleLoop_fix (aid : Nat) (a : Int) (ep : Nat) (now : Int)
    (L : List (Nat × Nat × Option Int)) :
    ∀ (s : List Notification) (c : Nat),
      (∀ uid faid hrs, (uid, faid, hrs) ∈ L → faid = aid →
        ∀ na, lateSchedulingDecision a (a - effectiveHours hrs * 3600) now = some na →
          hasKey s uid aid ep = true) →
      L.foldl (scheduleStep aid a ep now) (s, c) = (s, c) := by
  induction L with
  | nil => intro s c hh; rfl
  | cons fo t ih =>
    intro s c hh
    obtain ⟨uid, faid, hrs⟩ := fo
    rw [List.foldl_cons]
    have hstep : scheduleStep aid a ep now (s, c) (uid, faid, hrs) = (s, c) := by
      unfold scheduleStep
      dsimp only
      by_cases hf : faid ≠ aid
      · rw [if_pos hf]
      · rw [if_neg hf]
        push_neg at hf
        cases hdec : lateSchedulingDecision a (a - effectiveHours hrs * 3600) now with
        | none => rfl
        | some na =>
          have hk := hh uid faid hrs (List.mem_cons_self _ _) hf na hdec
          subst hf
          dsimp only
          rw [create_notification_of_hasKey hk]
          rfl
    rw [hstep]
    exact ih s c fun uid faid hrs hmem => hh uid faid hrs (List.mem_cons_of_mem _ hmem)

theorem schedule_invalid_eq (aid : Nat) {a : Int} {ep : Nat}
    (follows : List Follow) (prefs : List Preference) (now : Int)
    (s : List Notification) (hv : a = 0 ∨ ep = 0) :
    schedule_notifications_for_anime aid (some (a, ep)) follows prefs now s =
      (s, ⟨false, "Invalid airing data", 0⟩) := by
  unfold schedule_notifications_for_anime
  dsimp only
  rw [if_pos hv]

theorem schedule_valid_eq (aid : Nat) {a : Int} {ep : Nat}
    (follows : List Follow) (prefs : List Preference) (now : Int)
    (s : List Notification) (hv : ¬(a = 0 ∨ ep = 0)) :
    schedule_notifications_for_anime aid (some (a, ep)) follows prefs now s =
      (((get_active_followers_with_preferences follows prefs).foldl
          (scheduleStep aid a ep now) (s, 0)).1,
       ⟨true, "Scheduled",
        ((get_active_followers_with_preferences follows prefs).foldl
          (scheduleStep aid a ep now) (s, 0)).2⟩) := by
  unfold schedule_notifications_for_anime
  dsimp only
  rw [if_neg hv]

/-- C2: idempotent scheduling — a second run of
`schedule_notifications_for_anime` with identical upstream data (same next
airing episode, followers, preferences and clock) leaves the store exactly as
the first run left it and reports `scheduled = 0`. -/
theorem c2_idempotent_scheduling (aid : Nat) (next : Option (Int × Nat))
    (follows : List Follow) (prefs : List Preference) (now : Int)
    (s0 : List Notification) :
    (schedule_notifications_for_anime aid next follows prefs now
        (schedule_notifications_for_anime aid next follows prefs now s0).1).1 =
      (schedule_notifications_for_anime aid next follows prefs now s0).1 ∧
    (schedule_notifications_for_anime aid next follows prefs now
        (schedule_notifications_for_anime aid next follows prefs now s0).1).2.scheduled = 0 := by
  cases next with
  | none => exact ⟨rfl, rfl⟩
  | some p =>
    obtain ⟨a, ep⟩ := p
    by_cases hv : a = 0 ∨ ep = 0
    · rw [schedule_invalid_eq aid follows prefs now s0 hv]
      dsimp only
      rw [schedule_invalid_eq aid follows prefs now s0 hv]
      exact ⟨rfl, rfl⟩
    · rw [schedule_valid_eq aid follows prefs now s0 hv]
      dsimp only
      rw [schedule_valid_eq aid follows prefs now _ hv]
      have hfix := scheduleLoop_fix aid a ep now
        (get_active_followers_with_preferences follows prefs)
        ((get_active_followers_with_preferences follows prefs).foldl
          (scheduleStep aid a ep now) (s0, 0)).1 0
        (fun uid faid hrs hmem hfaid na hdec => by
          subst hfaid
          exact scheduleLoop_creates _ s0 0 uid hrs na hmem hdec)
      rw [hfix]
      exact ⟨rfl, rfl⟩

/-! ### Late-scheduling policy -/

/-- C3 counterexample: at the boundary `notifyAt == now < airingAt` the
scheduler skips the follower instead of creating a pending row.  With
`now = 0`, `airingAt = 86400` (24h away) and the default 24h lead time the
naive notify time is exactly `now`; the claim asserts a pending row is
created, but the run leaves the store empty and reports `scheduled = 0`. -/
theorem c3_boundary_counterexample :
    (schedule_notifications_for_anime 5 (some (86400, 3))
        [{ user_id := 7, anilist_id := 5, notify_email := "u@x",
           watch_status := .watching }] [] 0 []).1 = [] ∧
    (schedule_notifications_for_anime 5 (some (86400, 3))
        [{ user_id := 7, anilist_id := 5, notify_email := "u@x",
           watch_status := .watching }] [] 0 []).2.scheduled = 0 ∧
    lateSchedulingDecision 86400 0 0 = none :=
  ⟨rfl, rfl, rfl⟩

/-- C3 amended: the late-scheduling policy as implemented — clamp to `now`
when `notifyAt < now < airingAt`; skip exactly when `notifyAt <= now` and
(`now >= airingAt` or `notifyAt == now`), so the boundary `notifyAt == now`
with `now < airingAt` is a skip, not a creation; keep the naive `notifyAt`
when it is still in the future; a skip creates no row; a non-skipped fresh
key appends a pending row carrying the decided notify time; and the
late-window instance `airingAt = now + 2h`, `leadTimeHours = 24` yields one
pending row with `notifyAt == now`. -/
theorem c3_late_policy_amended :
    (∀ airing naive now : Int, naive < now → now < airing →
        lateSchedulingDecision airing naive now = some now) ∧
    (∀ airing naive now : Int, naive ≤ now → (airing ≤ now ∨ naive = now) →
        lateSchedulingDecision airing naive now = none) ∧
    (∀ airing naive now : Int, now < naive →
        lateSchedulingDecision airing naive now = some naive) ∧
    (∀ (aid : Nat) (a : Int) (ep : Nat) (now : Int) (s : List Notification)
        (c uid : Nat) (hrs : Option Int),
        lateSchedulingDecision a (a - effectiveHours hrs * 3600) now = none →
        scheduleStep aid a ep now (s, c) (uid, aid, hrs) = (s, c)) ∧
    (∀ (aid : Nat) (a : Int) (ep : Nat) (now : Int) (s : List Notification)
        (c uid : Nat) (hrs : Option Int) (na : Int),
        lateSchedulingDecision a (a - effectiveHours hrs * 3600) now = some na →
        hasKey s uid aid ep = false →
        scheduleStep aid a ep now (s, c) (uid, aid, hrs) =
          (s ++ [{ notification_id := freshId s, user_id := uid,
                   anilist_id := aid, episode_number := ep, airing_at := a,
                   notify_at := na, status := .pending, sent_at := none,
                   error_message := none }], c + 1)) ∧
    (schedule_notifications_for_anime 5 (some (8200, 3))
        [{ user_id := 7, anilist_id := 5, notify_email := "u@x",
           watch_status := .watching }] [] 1000 []).1 =
      [{ notification_id := 1, user_id := 7, anilist_id := 5,
         episode_number := 3, airing_at := 8200, notify_at := 1000,
         status := .pending, sent_at := none, error_message := none }] := by
  refine ⟨?_, ?_, ?_, ?_, ?_, rfl⟩
  · intro airing naive now h1 h2
    unfold lateSchedulingDecision
    rw [if_pos ⟨h1, h2⟩]
  · intro airing naive now h1 h2
    unfold lateSchedulingDecision
    rw [if_neg, if_pos h1]
    rintro ⟨hx, hy⟩
    rcases h2 with h2 | h2 <;> omega
  · intro airing naive now h1
    unfold lateSchedulingDecision
    rw [if_neg, if_neg]
    · omega
    · rintro ⟨hx, hy⟩
      omega
  · intro aid a ep now s c uid hrs hdec
    unfold scheduleStep
    dsimp only
    rw [if_neg (fun hh => hh rfl), hdec]
  · intro aid a ep now s c uid hrs na hdec hk
    unfold scheduleStep
    dsimp only
    rw [if_neg (fun hh => hh rfl), hdec]
    dsimp only
    rw [create_notification_of_not_hasKey (by simp [hk])]
    rfl

/-- Witness for C3 amended: the clamp case at a concrete input. -/
theorem c3_late_policy_amended_witness :
    lateSchedulingDecision 100 (-5) 0 = some 0 :=
  c3_late_policy_amended.1 100 (-5) 0 (by decide) (by decide)

/-! ### Due-query and reconciler auto-invalidation -/

theorem getDue_returned_spec (follows : List Follow) (now : Int) (limit : Nat)
    (store : List Notification) :
    ∀ r2 ∈ (get_pending_notifications follows now limit store).2,
      r2.status = .pending ∧ r2.notify_at ≤ now ∧
        isLiveFollow follows r2.user_id r2.anilist_id = true := by
  intro r2 hr2
  unfold get_pending_notifications at hr2
  dsimp only at hr2
  have hmem := (List.take_sublist limit _).subset hr2
  have := List.mem_filter.1 hmem
  obtain ⟨hmem2, hcond⟩ := this
  rw [Bool.and_eq_true] at hcond
  unfold isDuePending at hcond
  rw [Bool.and_eq_true, beq_iff_eq, decide_eq_true_eq] at hcond
  exact ⟨hcond.1.1, hcond.1.2, hcond.2⟩

theorem getDue_snd_sublist (follows : List Follow) (now : Int) (limit : Nat)
    (store : List Notification) :
    List.Sublist (get_pending_notifications follows now limit store).2
      (get_pending_notifications follows now limit store).1 := by
  unfold get_pending_notifications
  dsimp only
  exact (List.take_sublist _ _).trans (List.filter_sublist _)

/-- C4 counterexample: `get_pending_notifications` does not cancel a pending
row that fails the live-follow invariant when the row is not yet due
(`notify_at > now`); the claim asserts every failing pending row is
transitioned to cancelled, but this store is returned unchanged. -/
theorem c4_not_due_counterexample :
    (get_pending_notifications [] 0 100
        [{ notification_id := 1, user_id := 7, anilist_id := 5,
           episode_number := 3, airing_at := 100, notify_at := 10,
           status := .pending, sent_at := none, error_message := none }]).1 =
      [{ notification_id := 1, user_id := 7, anilist_id := 5,
         episode_number := 3, airing_at := 100, notify_at := 10,
         status := .pending, sent_at := none, error_message := none }] ∧
    isLiveFollow [] 7 5 = false :=
  ⟨rfl, rfl⟩

/-- C4 amended: `get_pending_notifications` cancels (with the auto-cancel
error message) exactly the pending rows that are already due
(`notify_at <= now`) and fail the live-follow invariant, leaves every other
row untouched, and returns only live pending due rows, at most `limit` of
them; `cancel_invalid_notifications` cancels exactly the pending rows that
fail the invariant, regardless of dueness, leaving all others untouched. -/
theorem c4_auto_invalidation_amended :
    (∀ (follows : List Follow) (now : Int) (limit : Nat)
        (store : List Notification), ∀ r ∈ store,
        (isDuePending now r = true →
          isLiveFollow follows r.user_id r.anilist_id = false →
          { r with status := .cancelled, error_message := some autoCancelMsg } ∈
            (get_pending_notifications follows now limit store).1) ∧
        (¬(isDuePending now r = true ∧
            isLiveFollow follows r.user_id r.anilist_id = false) →
          r ∈ (get_pending_notifications follows now limit store).1)) ∧
    (∀ (follows : List Follow) (now : Int) (limit : Nat)
        (store : List Notification),
        ∀ r2 ∈ (get_pending_notifications follows now limit store).2,
          r2.status = .pending ∧ r2.notify_at ≤ now ∧
            isLiveFollow follows r2.user_id r2.anilist_id = true) ∧
    (∀ (follows : List Follow) (now : Int) (limit : Nat)
        (store : List Notification),
        (get_pending_notifications follows now limit store).2.length ≤ limit) ∧
    (∀ (follows : List Follow) (store : List Notification), ∀ r ∈ store,
        (r.status = .pending →
          isLiveFollow follows r.user_id r.anilist_id = false →
          { r with status := .cancelled, error_message := some autoCancelMsg } ∈
            (cancel_invalid_notifications follows store).1) ∧
        (¬(r.status = .pending ∧
            isLiveFollow follows r.user_id r.anilist_id = false) →
          r ∈ (cancel_invalid_notifications follows store).1)) := by
  refine ⟨?_, ?_, ?_, ?_⟩
  · intro follows now limit store r hr
    constructor
    · intro h1 h2
      unfold get_pending_notifications
      dsimp only
      have : (fun n : Notification =>
          if isDuePending now n && !(isLiveFollow follows n.user_id n.anilist_id) then
            { n with status := .cancelled, error_message := some autoCancelMsg }
          else n) r =
          { r with status := .cancelled, error_message := some autoCancelMsg } := by
        dsimp only
        rw [if_pos]
        rw [h1, h2]
        rfl
      rw [← this]
      exact List.mem_map_of_mem _ hr
    · intro hno
      unfold get_pending_notifications
      dsimp only
      have : (fun n : Notification =>
          if isDuePending now n && !(isLiveFollow follows n.user_id n.anilist_id) then
            { n with status := .cancelled, error_message := some autoCancelMsg }
          else n) r = r := by
        dsimp only
        rw [if_neg]
        intro hcond
        rw [Bool.and_eq_true, Bool.not_eq_eq_eq_not] at hcond
        exact hno ⟨hcond.1, by simpa using hcond.2⟩
      rw [← this]
      exact List.mem_map_of_mem _ hr
  · exact getDue_returned_spec
  · intro follows now limit store
    unfold get_pending_notifications
    dsimp only
    rw [List.length_take]
    exact Nat.min_le_left _ _
  · intro follows store r hr
    constructor
    · intro h1 h2
      unfold cancel_invalid_notifications
      dsimp only
      have : (fun n : Notification =>
          if n.status == Status.pending && !(isLiveFollow follows n.user_id n.anilist_id) then
            { n with status := .cancelled, error_message := some autoCancelMsg }
          else n) r =
          { r with status := .cancelled, error_message := some autoCancelMsg } := by
        dsimp only
        rw [if_pos]
        rw [h2]
        simp [h1]
      rw [← this]
      exact List.mem_map_of_mem _ hr
    · intro hno
      unfold cancel_invalid_notifications
      dsimp only
      have : (fun n : Notification =>
          if n.status == Status.pending && !(isLiveFollow follows n.user_id n.anilist_id) then
            { n with status := .cancelled, error_message := some autoCancelMsg }
          else n) r = r := by
        dsimp only
        rw [if_neg]
        intro hcond
        rw [Bool.and_eq_true, beq_iff_eq, Bool.not_eq_eq_eq_not] at hcond
        exact hno ⟨hcond.1, by simpa using hcond.2⟩
      rw [← this]
      exact List.mem_map_of_mem _ hr

/-- Witness for C4 amended: the reconciler cancels a concrete stale pending
row. -/
theorem c4_auto_invalidation_amended_witness :
    { notification_id := 1, user_id := 7, anilist_id := 5, episode_number := 3,
      airing_at := 100, notify_at := 10, status := Status.cancelled,
      sent_at := none, error_message := some autoCancelMsg : Notification } ∈
      (cancel_invalid_notifications []
        [{ notification_id := 1, user_id := 7, anilist_id := 5,
           episode_number := 3, airing_at := 100, notify_at := 10,
           status := .pending, sent_at := none, error_message := none }]).1 :=
  (c4_auto_invalidation_amended.2.2.2 []
    [{ notification_id := 1, user_id := 7, anilist_id := 5,
       episode_number := 3, airing_at := 100, notify_at := 10,
       status := .pending, sent_at := none, error_message := none }]
    _ (List.mem_singleton.2 rfl)).1 rfl rfl

/-! ### Terminal immutability -/

theorem beq_pending_false_of_terminal {st : Status} (h : st.isTerminal = true) :
    (st == Status.pending) = false := by
  cases st with
  | pending => exact Bool.noConfusion h
  | sent => rfl
  | failed => rfl
  | cancelled => rfl

theorem map_terminal_fixed {g : Notification → Notification}
    (hid : ∀ n, (g n).notification_id = n.notification_id)
    (hfix : ∀ n, n.status.isTerminal = true → g n = n)
    {s : List Notification} (hs : uniqueIds s) {r : Notification}
    (hr : r ∈ s) (ht : r.status.isTerminal = true) :
    ∀ r2 ∈ s.map g, r2.notification_id = r.notification_id → r2 = r := by
  intro r2 hr2 hideq
  obtain ⟨a2, ha2, rfl⟩ := List.mem_map.1 hr2
  have haid : a2.notification_id = r.notification_id := by
    rw [← hid a2]
    exact hideq
  have haeq : a2 = r := mem_eq_of_uniqueIds hs ha2 hr haid
  subst haeq
  exact hfix a2 ht

theorem getDue_g_fixes_terminal (follows : List Follow) (now : Int)
    {n : Notification} (ht : n.status.isTerminal = true) :
    (if isDuePending now n && !(isLiveFollow follows n.user_id n.anilist_id) then
       { n with status := .cancelled, error_message := some autoCancelMsg }
     else n) = n := by
  rw [if_neg]
  unfold isDuePending
  rw [beq_pending_false_of_terminal ht]
  simp

theorem getDue_keeps_terminal {follows : List Follow} {now : Int} {limit : Nat}
    {s : List Notification} {r : Notification} (hr : r ∈ s)
    (ht : r.status.isTerminal = true) :
    r ∈ (get_pending_notifications follows now limit s).1 := by
  unfold get_pending_notifications
  dsimp only
  rw [← getDue_g_fixes_terminal follows now ht]
  exact List.mem_map_of_mem _ hr

theorem scheduleStep_mem {aid : Nat} {a : Int} {ep : Nat} {now : Int}
    (acc : List Notification × Nat) (fo : Nat × Nat × Option Int)
    {r : Notification} (hr : r ∈ acc.1) :
    r ∈ (scheduleStep aid a ep now acc fo).1 := by
  obtain ⟨s, c⟩ := acc
  obtain ⟨uid, faid, hrs⟩ := fo
  unfold scheduleStep
  dsimp only
  split
  · exact hr
  · cases hdec : lateSchedulingDecision a (a - effectiveHours hrs * 3600) now with
    | none => exact hr
    | some na =>
      dsimp only
      by_cases hk : hasKey s uid aid ep = true
      · rw [create_notification_of_hasKey hk]
        exact hr
      · rw [create_notification_of_not_hasKey hk]
        exact List.mem_append_left _ hr

theorem scheduleLoop_untouched (aid : Nat) (a : Int) (ep : Nat) (now : Int)
    (L : List (Nat × Nat × Option Int)) :
    ∀ (s : List Notification) (c : Nat), uniqueIds s → ∀ r ∈ s,
      r ∈ (L.foldl (scheduleStep aid a ep now) (s, c)).1 ∧
      ∀ r2 ∈ (L.foldl (scheduleStep aid a ep now) (s, c)).1,
        r2.notification_id = r.notification_id → r2 = r := by
  induction L with
  | nil =>
    intro s c hs r hr
    exact ⟨hr, fun r2 hr2 hid => mem_eq_of_uniqueIds hs hr2 hr hid⟩
  | cons fo t ih =>
    intro s c hs r hr
    rw [List.foldl_cons]
    exact ih _ _ (scheduleStep_uniqueIds (s, c) fo hs) r
      (scheduleStep_mem (s, c) fo hr)

/-- Status written by the dispatcher for one outcome. -/
def outcomeStatus : SendOutcome → Status
  | .success => .sent
  | _ => .failed

/-- Error message written by the dispatcher for one outcome. -/
def outcomeMessage : SendOutcome → Option String
  | .success => none
  | .failure => some "Failed to send email"
  | .raised m => some m

theorem sendStep_eq (now : Int) (outcome : Notification → SendOutcome)
    (s : List Notification) (a b : Nat) (d : Notification) :
    sendStep now outcome (s, a, b) d =
      (update_notification_status s d.notification_id
         (outcomeStatus (outcome d)) (outcomeMessage (outcome d)) now,
       (if outcome d = .success then a + 1 else a),
       (if outcome d = .success then b else b + 1)) := by
  unfold sendStep outcomeStatus outcomeMessage
  cases ho : outcome d with
  | success => simp
  | failure => simp
  | raised m => simp

theorem sendLoop_untouched (now : Int) (outcome : Notification → SendOutcome)
    (L : List Notification) :
    ∀ (s : List Notification) (a b : Nat), uniqueIds s → ∀ r ∈ s,
      r.notification_id ∉ L.map Notification.notification_id →
      (r ∈ (L.foldl (sendStep now outcome) (s, a, b)).1 ∧
       ∀ r2 ∈ (L.foldl (sendStep now outcome) (s, a, b)).1,
         r2.notification_id = r.notification_id → r2 = r) := by
  induction L with
  | nil =>
    intro s a b hs r hr hnot
    exact ⟨hr, fun r2 hr2 hid => mem_eq_of_uniqueIds hs hr2 hr hid⟩
  | cons d t ih =>
    intro s a b hs r hr hnot
    have hne : r.notification_id ≠ d.notification_id := by
      intro h
      apply hnot
      rw [List.map_cons, h]
      exact List.mem_cons_self _ _
    have hnot2 : r.notification_id ∉ t.map Notification.notification_id := by
      intro hm
      apply hnot
      rw [List.map_cons]
      exact List.mem_cons_of_mem _ hm
    rw [List.foldl_cons, sendStep_eq]
    exact ih _ _ _
      (uniqueIds_of_map_id_eq (upd_map_id _ _ _ _ _) hs) r
      (upd_mem_of_ne _ _ _ hr hne) hnot2

/-- C5: terminal immutability — for every operation of the subsystem, a row
whose status is terminal (`sent`, `failed` or `cancelled`) is either deleted
by retention or survives completely unchanged (in particular its status never
changes, and every cancellation pass touches only pending rows); moreover the
due query never returns a non-pending row, so a `sent` row is never handed to
the dispatcher again. -/
theorem c5_terminal_immutability :
    (∀ (op : Op) (s : List Notification), uniqueIds s →
      ∀ r ∈ s, r.status.isTerminal = true →
        ∀ r2 ∈ applyOp op s, r2.notification_id = r.notification_id → r2 = r) ∧
    (∀ (follows : List Follow) (now : Int) (limit : Nat) (s : List Notification),
      ∀ r2 ∈ (get_pending_notifications follows now limit s).2,
        r2.status = Status.pending) := by
  constructor
  · intro op s hs r hr ht
    cases op with
    | schedule aid next follows prefs now =>
      cases next with
      | none =>
        intro r2 hr2 hid
        exact mem_eq_of_uniqueIds hs hr2 hr hid
      | some p =>
        obtain ⟨a, ep⟩ := p
        by_cases hv : a = 0 ∨ ep = 0
        · intro r2 hr2 hid
          simp only [applyOp] at hr2
          rw [schedule_invalid_eq aid follows prefs now s hv] at hr2
          exact mem_eq_of_uniqueIds hs hr2 hr hid
        · intro r2 hr2 hid
          simp only [applyOp] at hr2
          rw [schedule_valid_eq aid follows prefs now s hv] at hr2
          dsimp only at hr2
          exact (scheduleLoop_untouched aid a ep now _ s 0 hs r hr).2 r2 hr2 hid
    | getDue follows now limit =>
      intro r2 hr2 hid
      simp only [applyOp] at hr2
      unfold get_pending_notifications at hr2
      try dsimp only at hr2
      exact map_terminal_fixed (fun n => by split <;> rfl)
        (fun n hterm => getDue_g_fixes_terminal follows now hterm)
        hs hr ht r2 hr2 hid
    | dispatch follows outcome now =>
      intro r2 hr2 hid2
      have hs1 : uniqueIds ((get_pending_notifications follows now 100 s).1) :=
        uniqueIds_of_map_id_eq (getDue_store_map_id follows now 100 s) hs
      have hrs1 : r ∈ (get_pending_notifications follows now 100 s).1 :=
        getDue_keeps_terminal hr ht
      have hnotin : r.notification_id ∉
          ((get_pending_notifications follows now 100 s).2).map
            Notification.notification_id := by
        intro hmem9
        obtain ⟨d, hd, hdid⟩ := List.mem_map.1 hmem9
        have hdpend := (getDue_returned_spec follows now 100 s d hd).1
        have hds1 : d ∈ (get_pending_notifications follows now 100 s).1 :=
          (getDue_snd_sublist follows now 100 s).subset hd
        have hdr : d = r := mem_eq_of_uniqueIds hs1 hds1 hrs1 hdid
        rw [hdr] at hdpend
        rw [hdpend] at ht
        exact Bool.noConfusion ht
      exact (sendLoop_untouched now outcome
        ((get_pending_notifications follows now 100 s).2)
        ((get_pending_notifications follows now 100 s).1) 0 0
        hs1 r hrs1 hnotin).2 r2 hr2 hid2
    | reconcile follows =>
      intro r2 hr2 hid
      simp only [applyOp] at hr2
      unfold cancel_invalid_notifications at hr2
      try dsimp only at hr2
      refine map_terminal_fixed (fun n => by split <;> rfl)
        (fun n hterm => ?_) hs hr ht r2 hr2 hid
      try dsimp only
      rw [if_neg]
      rw [beq_pending_false_of_terminal hterm]
      simp
    | retention now days =>
      intro r2 hr2 hid
      simp only [applyOp] at hr2
      unfold delete_old_notifications at hr2
      try dsimp only at hr2
      exact mem_eq_of_uniqueIds hs (List.mem_of_mem_filter hr2) hr hid
    | sweep follows now days =>
      intro r2 hr2 hid
      simp only [applyOp] at hr2
      unfold cleanup_old_notifications delete_old_notifications at hr2
      try dsimp only at hr2
      have hr2m : r2 ∈ (cancel_invalid_notifications follows s).1 :=
        List.mem_of_mem_filter hr2
      unfold cancel_invalid_notifications at hr2m
      try dsimp only at hr2m
      refine map_terminal_fixed (fun n => by split <;> rfl)
        (fun n hterm => ?_) hs hr ht r2 hr2m hid
      try dsimp only
      rw [if_neg]
      rw [beq_pending_false_of_terminal hterm]
      simp
    | unfollow uid aid =>
      intro r2 hr2 hid
      simp only [applyOp] at hr2
      unfold cancel_notifications_on_unfollow at hr2
      refine map_terminal_fixed (fun n => by split <;> rfl)
        (fun n hterm => ?_) hs hr ht r2 hr2 hid
      try dsimp only
      rw [if_neg]
      rw [beq_pending_false_of_terminal hterm]
      simp
    | followChanged c oe os f =>
      intro r2 hr2 hid
      simp only [applyOp] at hr2
      unfold handle_anime_follow_changes at hr2
      by_cases hc : c = true
      · rw [if_pos hc] at hr2
        exact mem_eq_of_uniqueIds hs hr2 hr hid
      · rw [if_neg hc] at hr2
        dsimp only at hr2
        split at hr2
        · refine map_terminal_fixed (fun n => by split <;> rfl)
            (fun n hterm => ?_) hs hr ht r2 hr2 hid
          try dsimp only
          rw [if_neg]
          rw [beq_pending_false_of_terminal hterm]
          simp
        · exact mem_eq_of_uniqueIds hs hr2 hr hid
    | cancelForAnime uid aid =>
      intro r2 hr2 hid
      simp only [applyOp] at hr2
      unfold cancel_notifications_for_anime at hr2
      try dsimp only at hr2
      refine map_terminal_fixed (fun n => by split <;> rfl)
        (fun n hterm => ?_) hs hr ht r2 hr2 hid
      try dsimp only
      rw [if_neg]
      rw [beq_pending_false_of_terminal hterm]
      simp
  · intro follows now limit s r2 hr2
    exact (getDue_returned_spec follows now limit s r2 hr2).1

/-- Witness for C5: a concrete `sent` row survives a concrete unfollow event
unchanged. -/
theorem c5_terminal_immutability_witness :
    ({ notification_id := 1, user_id := 7, anilist_id := 5, episode_number := 3,
       airing_at := 100, notify_at := 50, status := .sent,
       sent_at := some 60, error_message := none } : Notification) =
      { notification_id := 1, user_id := 7, anilist_id := 5, episode_number := 3,
        airing_at := 100, notify_at := 50, status := .sent,
        sent_at := some 60, error_message := none } :=
  c5_terminal_immutability.1 (Op.unfollow 7 5)
    [{ notification_id := 1, user_id := 7, anilist_id := 5, episode_number := 3,
       airing_at := 100, notify_at := 50, status := .sent,
       sent_at := some 60, error_message := none }]
    (by unfold uniqueIds; decide) _ (List.mem_singleton.2 rfl) (by decide)
    _ (by decide) rfl

/-! ### Dispatcher outcome recording -/

theorem sendLoop_counts (now : Int) (outcome : Notification → SendOutcome)
    (L : List Notification) :
    ∀ (s : List Notification) (a b : Nat),
      (L.foldl (sendStep now outcome) (s, a, b)).2.1 +
        (L.foldl (sendStep now outcome) (s, a, b)).2.2 = a + b + L.length := by
  induction L with
  | nil =>
    intro s a b
    simp
  | cons d t ih =>
    intro s a b
    rw [List.foldl_cons, sendStep_eq]
    by_cases hsucc : outcome d = SendOutcome.success
    · rw [if_pos hsucc, if_pos hsucc]
      rw [ih]
      simp only [List.length_cons]
      omega
    · rw [if_neg hsucc, if_neg hsucc]
      rw [ih]
      simp only [List.length_cons]
      omega

theorem sendLoop_spec (now : Int) (outcome : Notification → SendOutcome)
    (L : List Notification) :
    ∀ (s : List Notification) (a b : Nat), uniqueIds s →
      (∀ d ∈ L, d ∈ s) → (L.map Notification.notification_id).Nodup →
      (∀ d ∈ L, ∀ r2 ∈ (L.foldl (sendStep now outcome) (s, a, b)).1,
        r2.notification_id = d.notification_id →
          r2 = applyStatusUpdate (outcomeStatus (outcome d))
            (outcomeMessage (outcome d)) now d) ∧
      ((L.foldl (sendStep now outcome) (s, a, b)).2.1 =
        a + (L.countP fun d => outcome d == SendOutcome.success)) ∧
      ((L.foldl (sendStep now outcome) (s, a, b)).2.2 =
        b + (L.countP fun d => !(outcome d == SendOutcome.success))) := by
  induction L with
  | nil =>
    intro s a b hs hsub hnod
    refine ⟨fun d hd => absurd hd (List.not_mem_nil d), ?_, ?_⟩ <;> simp
  | cons d t ih =>
    intro s a b hs hsub hnod
    rw [List.map_cons, List.nodup_cons] at hnod
    obtain ⟨hdnot, hnod2⟩ := hnod
    have hds : d ∈ s := hsub d (List.mem_cons_self _ _)
    have hs2 : uniqueIds (update_notification_status s d.notification_id
        (outcomeStatus (outcome d)) (outcomeMessage (outcome d)) now) :=
      uniqueIds_of_map_id_eq (upd_map_id _ _ _ _ _) hs
    have hsub2 : ∀ d2 ∈ t, d2 ∈ update_notification_status s d.notification_id
        (outcomeStatus (outcome d)) (outcomeMessage (outcome d)) now := by
      intro d2 hd2
      have hne : d2.notification_id ≠ d.notification_id := by
        intro h
        apply hdnot
        rw [← h]
        exact List.mem_map_of_mem _ hd2
      exact upd_mem_of_ne _ _ _ (hsub d2 (List.mem_cons_of_mem _ hd2)) hne
    have ihs := ih (update_notification_status s d.notification_id
        (outcomeStatus (outcome d)) (outcomeMessage (outcome d)) now)
      (if outcome d = SendOutcome.success then a + 1 else a)
      (if outcome d = SendOutcome.success then b else b + 1)
      hs2 hsub2 hnod2
    refine ⟨?_, ?_, ?_⟩
    · intro d0 hd0 r2 hr2 hid2
      rw [List.foldl_cons, sendStep_eq] at hr2
      rcases List.mem_cons.1 hd0 with h1 | h2
      · subst h1
        have happly : applyStatusUpdate (outcomeStatus (outcome d0))
            (outcomeMessage (outcome d0)) now d0 ∈
            update_notification_status s d0.notification_id
              (outcomeStatus (outcome d0)) (outcomeMessage (outcome d0)) now :=
          upd_target_mem _ _ _ hs hds rfl
        have hidap : (applyStatusUpdate (outcomeStatus (outcome d0))
            (outcomeMessage (outcome d0)) now d0).notification_id ∉
            t.map Notification.notification_id := by
          rw [applyStatusUpdate_notification_id]
          exact hdnot
        have := (sendLoop_untouched now outcome t _ _ _ hs2 _ happly hidap).2
          r2 hr2
        rw [applyStatusUpdate_notification_id] at this
        exact this hid2
      · exact (ih _ _ _ hs2 hsub2 hnod2).1 d0 h2 r2 hr2 hid2
    · rw [List.foldl_cons, sendStep_eq, ihs.2.1, List.countP_cons]
      by_cases hsucc : outcome d = SendOutcome.success
      · have hb : (outcome d == SendOutcome.success) = true := by
          rw [hsucc]
          exact beq_self_eq_true _
        rw [if_pos hsucc, hb]
        simp
        omega
      · have hb : (outcome d == SendOutcome.success) = false :=
          beq_eq_false_iff_ne.2 hsucc
        rw [if_neg hsucc, hb]
        simp
    · rw [List.foldl_cons, sendStep_eq, ihs.2.2, List.countP_cons]
      by_cases hsucc : outcome d = SendOutcome.success
      · have hb : (outcome d == SendOutcome.success) = true := by
          rw [hsucc]
          exact beq_self_eq_true _
        rw [if_pos hsucc, hb]
        simp
      · have hb : (outcome d == SendOutcome.success) = false :=
          beq_eq_false_iff_ne.2 hsucc
        rw [if_neg hsucc, hb]
        simp
        omega

/-- C6 counterexample: when the per-item step throws an exception whose
message is the empty string, `update_notification_status` is called with a
falsy `error_message` and leaves the field unset — the row ends `failed` with
`error_message = none`, not with the thrown message. -/
theorem c6_empty_message_counterexample :
    (send_pending_notifications
        [{ user_id := 7, anilist_id := 5, notify_email := "u@x",
           watch_status := .watching }]
        (fun _ => .raised "") 0
        [{ notification_id := 1, user_id := 7, anilist_id := 5,
           episode_number := 3, airing_at := 100, notify_at := 0,
           status := .pending, sent_at := none, error_message := none }]).1 =
      [{ notification_id := 1, user_id := 7, anilist_id := 5,
         episode_number := 3, airing_at := 100, notify_at := 0,
         status := .failed, sent_at := none, error_message := none }] ∧
    (send_pending_notifications
        [{ user_id := 7, anilist_id := 5, notify_email := "u@x",
           watch_status := .watching }]
        (fun _ => .raised "") 0
        [{ notification_id := 1, user_id := 7, anilist_id := 5,
           episode_number := 3, airing_at := 100, notify_at := 0,
           status := .pending, sent_at := none, error_message := none }]).2 =
      { sent := 0, failed := 1, total := 1 } :=
  ⟨rfl, rfl⟩

/-- C6 amended: for each due pending notification processed by the
dispatcher, a successful send transitions the row to `sent` with
`sentAt = now`; a send returning false transitions it to `failed` with
`errorMessage = "Failed to send email"`; a thrown per-item error transitions
it to `failed` and sets `errorMessage` to the thrown message when that
message is non-empty (an empty message leaves `errorMessage` unchanged); an
individual failure never aborts the batch, and the run reports
`total = sent + failed = number of due rows processed`. -/
theorem c6_dispatch_outcome_recording (follows : List Follow)
    (outcome : Notification → SendOutcome) (now : Int)
    (store : List Notification) (hs : uniqueIds store) :
    (∀ d ∈ (get_pending_notifications follows now 100 store).2,
      ∀ r2 ∈ (send_pending_notifications follows outcome now store).1,
        r2.notification_id = d.notification_id →
          r2.status = outcomeStatus (outcome d) ∧
          r2.sent_at = (if outcome d = .success then some now else d.sent_at) ∧
          (outcome d = .failure →
            r2.error_message = some "Failed to send email") ∧
          (∀ m, outcome d = .raised m →
            r2.error_message = if m ≠ "" then some m else d.error_message)) ∧
    ((send_pending_notifications follows outcome now store).2.sent =
      ((get_pending_notifications follows now 100 store).2.countP
        fun d => outcome d == SendOutcome.success)) ∧
    ((send_pending_notifications follows outcome now store).2.failed =
      ((get_pending_notifications follows now 100 store).2.countP
        fun d => !(outcome d == SendOutcome.success))) ∧
    ((send_pending_notifications follows outcome now store).2.total =
      (send_pending_notifications follows outcome now store).2.sent +
        (send_pending_notifications follows outcome now store).2.failed) ∧
    ((send_pending_notifications follows outcome now store).2.total =
      (get_pending_notifications follows now 100 store).2.length) := by
  have hs1 : uniqueIds ((get_pending_notifications follows now 100 store).1) :=
    uniqueIds_of_map_id_eq (getDue_store_map_id follows now 100 store) hs
  have hsub : ∀ d ∈ (get_pending_notifications follows now 100 store).2,
      d ∈ (get_pending_notifications follows now 100 store).1 :=
    fun d hd => (getDue_snd_sublist follows now 100 store).subset hd
  have hnod : (((get_pending_notifications follows now 100 store).2).map
      Notification.notification_id).Nodup :=
    List.Nodup.sublist
      ((getDue_snd_sublist follows now 100 store).map Notification.notification_id)
      hs1
  have hspec := sendLoop_spec now outcome
    (get_pending_notifications follows now 100 store).2
    (get_pending_notifications follows now 100 store).1 0 0 hs1 hsub hnod
  have hcnt := sendLoop_counts now outcome
    (get_pending_notifications follows now 100 store).2
    (get_pending_notifications follows now 100 store).1 0 0
  refine ⟨?_, ?_, ?_, rfl, ?_⟩
  · intro d hd r2 hr2 hid2
    have heq := hspec.1 d hd r2 hr2 hid2
    refine ⟨?_, ?_, ?_, ?_⟩
    · rw [heq, applyStatusUpdate_status]
    · rw [heq, applyStatusUpdate_sent_at]
      cases ho : outcome d with
      | success => simp [outcomeStatus]
      | failure => simp [outcomeStatus]
      | raised m => simp [outcomeStatus]
    · intro ho
      rw [heq, applyStatusUpdate_error_message, ho]
      simp [outcomeMessage]
    · intro m ho
      rw [heq, applyStatusUpdate_error_message, ho]
      rfl
  · exact hspec.2.1.trans (Nat.zero_add _)
  · exact hspec.2.2.trans (Nat.zero_add _)
  · have heq : (send_pending_notifications follows outcome now store).2.total =
        (((get_pending_notifications follows now 100 store).2).foldl
          (sendStep now outcome)
          ((get_pending_notifications follows now 100 store).1, 0, 0)).2.1 +
        (((get_pending_notifications follows now 100 store).2).foldl
          (sendStep now outcome)
          ((get_pending_notifications follows now 100 store).1, 0, 0)).2.2 := rfl
    rw [heq, hcnt]
    omega

/-- Witness for C6 amended: one concrete due row transitions to `failed` with
the default error message when the send returns false. -/
theorem c6_dispatch_outcome_recording_witness :
    ({ notification_id := 1, user_id := 7, anilist_id := 5, episode_number := 3,
       airing_at := 100, notify_at := 0, status := Status.failed,
       sent_at := none, error_message := some "Failed to send email" } :
        Notification).status = Status.failed ∧
    ({ notification_id := 1, user_id := 7, anilist_id := 5, episode_number := 3,
       airing_at := 100, notify_at := 0, status := Status.failed,
       sent_at := none, error_message := some "Failed to send email" } :
        Notification).error_message = some "Failed to send email" := by
  have h := (c6_dispatch_outcome_recording
    [{ user_id := 7, anilist_id := 5, notify_email := "u@x",
       watch_status := .watching }]
    (fun _ => .failure) 0
    [{ notification_id := 1, user_id := 7, anilist_id := 5,
       episode_number := 3, airing_at := 100, notify_at := 0,
       status := .pending, sent_at := none, error_message := none }]
    (by unfold uniqueIds; decide)).1
    { notification_id := 1, user_id := 7, anilist_id := 5,
      episode_number := 3, airing_at := 100, notify_at := 0,
      status := .pending, sent_at := none, error_message := none }
    (by decide)
    { notification_id := 1, user_id := 7, anilist_id := 5,
      episode_number := 3, airing_at := 100, notify_at := 0,
      status := .failed, sent_at := none,
      error_message := some "Failed to send email" }
    (by decide) rfl
  exact ⟨h.1, h.2.2.1 rfl⟩

/-- C10: the dispatcher fetches due notifications with the fixed limit 100,
so one run attempts at most 100 sends and always reports
`total = sent + failed <= 100`. -/
theorem c10_dispatch_batch_bound (follows : List Follow)
    (outcome : Notification → SendOutcome) (now : Int)
    (store : List Notification) :
    (send_pending_notifications follows outcome now store).2.total =
      (send_pending_notifications follows outcome now store).2.sent +
        (send_pending_notifications follows outcome now store).2.failed ∧
    (send_pending_notifications follows outcome now store).2.total ≤ 100 := by
  constructor
  · rfl
  · have hcnt := sendLoop_counts now outcome
      (get_pending_notifications follows now 100 store).2
      (get_pending_notifications follows now 100 store).1 0 0
    have hlen : (get_pending_notifications follows now 100 store).2.length ≤ 100 := by
      unfold get_pending_notifications
      dsimp only
      rw [List.length_take]
      exact Nat.min_le_left _ _
    have heq : (send_pending_notifications follows outcome now store).2.total =
        (((get_pending_notifications follows now 100 store).2).foldl
          (sendStep now outcome)
          ((get_pending_notifications follows now 100 store).1, 0, 0)).2.1 +
        (((get_pending_notifications follows now 100 store).2).foldl
          (sendStep now outcome)
          ((get_pending_notifications follows now 100 store).1, 0, 0)).2.2 := rfl
    rw [heq, hcnt]
    omega

/-! ### Event-driven cancellation -/

theorem length_filter_partition {α : Type} (p : α → Bool) (l : List α) :
    (l.filter fun a => p a).length + (l.filter fun a => !(p a)).length =
      l.length := by
  induction l with
  | nil => rfl
  | cons a t ih =>
    by_cases h : p a = true
    · simp only [List.filter_cons, h, Bool.not_true, if_true, if_false,
        List.length_cons]
      simp only [Bool.false_eq_true, if_false]
      omega
    · rw [Bool.not_eq_true] at h
      simp only [List.filter_cons, h, Bool.not_false, if_true, if_false,
        List.length_cons]
      simp only [Bool.false_eq_true, if_false]
      omega

theorem cancel_map_mem_pos {uid aid : Nat} {msg : String}
    {store : List Notification} {r : Notification} (hr : r ∈ store)
    (h1 : r.user_id = uid) (h2 : r.anilist_id = aid)
    (h3 : r.status = .pending) :
    { r with status := .cancelled, error_message := some msg } ∈
      store.map (fun n =>
        if n.user_id == uid && n.anilist_id == aid && n.status == Status.pending then
          { n with status := .cancelled, error_message := some msg }
        else n) := by
  have heq : (fun n : Notification =>
      if n.user_id == uid && n.anilist_id == aid && n.status == Status.pending then
        { n with status := .cancelled, error_message := some msg }
      else n) r = { r with status := .cancelled, error_message := some msg } := by
    dsimp only
    rw [if_pos]
    rw [h1, h2, h3]
    simp
  rw [← heq]
  exact List.mem_map_of_mem _ hr

theorem cancel_map_mem_neg {uid aid : Nat} {msg : String}
    {store : List Notification} {r : Notification} (hr : r ∈ store)
    (hno : ¬(r.user_id = uid ∧ r.anilist_id = aid ∧ r.status = .pending)) :
    r ∈ store.map (fun n =>
      if n.user_id == uid && n.anilist_id == aid && n.status == Status.pending then
        { n with status := .cancelled, error_message := some msg }
      else n) := by
  have heq : (fun n : Notification =>
      if n.user_id == uid && n.anilist_id == aid && n.status == Status.pending then
        { n with status := .cancelled, error_message := some msg }
      else n) r = r := by
    dsimp only
    rw [if_neg]
    intro hc
    rw [Bool.and_eq_true, Bool.and_eq_true, beq_iff_eq, beq_iff_eq, beq_iff_eq] at hc
    exact hno ⟨hc.1.1, hc.1.2, hc.2⟩
  rw [← heq]
  exact List.mem_map_of_mem _ hr

/-- C7: event-driven cancellation — a Follow deletion immediately cancels
exactly the pending rows of that (user, show) with reason
"User unfollowed anime"; a Follow update whose notify channel goes from
non-empty to empty cancels exactly the pending rows of that (user, show) with
reason "User disabled email notifications"; any other Follow save (a
creation, an unchanged or still-set channel — in particular a bare
watch-status change) leaves the store untouched. -/
theorem c7_event_driven_cancellation :
    (∀ (uid aid : Nat) (store : List Notification), ∀ r ∈ store,
      (r.user_id = uid → r.anilist_id = aid → r.status = .pending →
        { r with status := .cancelled,
                 error_message := some "User unfollowed anime" } ∈
          cancel_notifications_on_unfollow uid aid store) ∧
      (¬(r.user_id = uid ∧ r.anilist_id = aid ∧ r.status = .pending) →
        r ∈ cancel_notifications_on_unfollow uid aid store)) ∧
    (∀ (oe : String) (os : Option WatchStatus) (f : Follow)
        (store : List Notification), oe ≠ "" → f.notify_email = "" →
      ∀ r ∈ store,
        (r.user_id = f.user_id → r.anilist_id = f.anilist_id →
          r.status = .pending →
          { r with status := .cancelled,
                   error_message := some "User disabled email notifications" } ∈
            handle_anime_follow_changes false (some oe) os f store) ∧
        (¬(r.user_id = f.user_id ∧ r.anilist_id = f.anilist_id ∧
            r.status = .pending) →
          r ∈ handle_anime_follow_changes false (some oe) os f store)) ∧
    (∀ (created : Bool) (oe : Option String) (os : Option WatchStatus)
        (f : Follow) (store : List Notification),
      (created = true ∨ oe = none ∨ oe = some "" ∨ f.notify_email ≠ "") →
      handle_anime_follow_changes created oe os f store = store) := by
  have hbranch : ∀ (oe : String) (os : Option WatchStatus) (f : Follow)
      (store : List Notification), oe ≠ "" → f.notify_email = "" →
      handle_anime_follow_changes false (some oe) os f store =
        store.map (fun n =>
          if n.user_id == f.user_id && n.anilist_id == f.anilist_id &&
              n.status == Status.pending then
            { n with status := .cancelled,
                     error_message := some "User disabled email notifications" }
          else n) := by
    intro oe os f store hoe hemail
    unfold handle_anime_follow_changes
    rw [if_neg (by simp)]
    dsimp only
    rw [if_pos]
    rw [Bool.and_eq_true, bne_iff_ne, beq_iff_eq]
    exact ⟨hoe, hemail⟩
  refine ⟨?_, ?_, ?_⟩
  · intro uid aid store r hr
    constructor
    · intro h1 h2 h3
      unfold cancel_notifications_on_unfollow
      exact cancel_map_mem_pos hr h1 h2 h3
    · intro hno
      unfold cancel_notifications_on_unfollow
      exact cancel_map_mem_neg hr hno
  · intro oe os f store hoe hemail r hr
    rw [hbranch oe os f store hoe hemail]
    constructor
    · intro h1 h2 h3
      exact cancel_map_mem_pos hr h1 h2 h3
    · intro hno
      exact cancel_map_mem_neg hr hno
  · intro created oe os f store hcase
    unfold handle_anime_follow_changes
    rcases hcase with h | h | h | h
    · rw [if_pos h]
    · subst h
      by_cases hc : created = true
      · rw [if_pos hc]
      · rw [if_neg hc]
        dsimp only
        rw [if_neg]
        simp
    · subst h
      by_cases hc : created = true
      · rw [if_pos hc]
      · rw [if_neg hc]
        dsimp only
        rw [if_neg]
        simp
    · by_cases hc : created = true
      · rw [if_pos hc]
      · rw [if_neg hc]
        dsimp only
        rw [if_neg]
        intro hcond
        rw [Bool.and_eq_true, beq_iff_eq] at hcond
        exact h hcond.2

/-- Witness for C7: a concrete unfollow event cancels a concrete pending row
with the unfollow reason. -/
theorem c7_event_driven_cancellation_witness :
    ({ notification_id := 1, user_id := 7, anilist_id := 5, episode_number := 3,
       airing_at := 100, notify_at := 50, status := Status.cancelled,
       sent_at := none,
       error_message := some "User unfollowed anime" } : Notification) ∈
      cancel_notifications_on_unfollow 7 5
        [{ notification_id := 1, user_id := 7, anilist_id := 5,
           episode_number := 3, airing_at := 100, notify_at := 50,
           status := .pending, sent_at := none, error_message := none }] :=
  (c7_event_driven_cancellation.1 7 5
    [{ notification_id := 1, user_id := 7, anilist_id := 5,
       episode_number := 3, airing_at := 100, notify_at := 50,
       status := .pending, sent_at := none, error_message := none }]
    _ (List.mem_singleton.2 rfl)).1 rfl rfl rfl

/-! ### Retention -/

/-- C8: retention — `delete_old_notifications` deletes every cancelled row
unconditionally and every sent row with `airing_at` before
`now - days`, keeps every pending and failed row regardless of age (and every
recent-enough sent row), and the deleted count plus the kept rows add up to
the whole store; with `days = 0` the sent-row cutoff is `now` itself. -/
theorem c8_retention_correctness (now days : Int) (store : List Notification) :
    (∀ r ∈ store, r.status = .cancelled →
      r ∉ (delete_old_notifications now days store).1) ∧
    (∀ r ∈ store, r.status = .sent → r.airing_at < now - days * 86400 →
      r ∉ (delete_old_notifications now days store).1) ∧
    (∀ r ∈ store, r.status = .pending ∨ r.status = .failed →
      r ∈ (delete_old_notifications now days store).1) ∧
    (∀ r ∈ store, r.status = .sent → ¬(r.airing_at < now - days * 86400) →
      r ∈ (delete_old_notifications now days store).1) ∧
    ((delete_old_notifications now days store).2 +
      (delete_old_notifications now days store).1.length = store.length) ∧
    (∀ r ∈ store, r.status = .sent → r.airing_at < now →
      r ∉ (delete_old_notifications now 0 store).1) := by
  refine ⟨?_, ?_, ?_, ?_, ?_, ?_⟩
  · intro r hr hst hmem
    have hcond := (List.mem_filter.1 hmem).2
    rw [Bool.not_eq_eq_eq_not, Bool.not_true] at hcond
    unfold retentionDelete at hcond
    rw [hst] at hcond
    simp at hcond
  · intro r hr hst hage hmem
    have hcond := (List.mem_filter.1 hmem).2
    rw [Bool.not_eq_eq_eq_not, Bool.not_true] at hcond
    unfold retentionDelete at hcond
    rw [hst] at hcond
    simp at hcond
    omega
  · intro r hr hst
    unfold delete_old_notifications
    dsimp only
    apply List.mem_filter.2
    refine ⟨hr, ?_⟩
    unfold retentionDelete
    rcases hst with h | h <;> rw [h] <;> simp
  · intro r hr hst hage
    unfold delete_old_notifications
    dsimp only
    apply List.mem_filter.2
    refine ⟨hr, ?_⟩
    unfold retentionDelete
    rw [hst]
    simp
    omega
  · unfold delete_old_notifications
    dsimp only
    have := length_filter_partition (retentionDelete (now - days * 86400)) store
    omega
  · intro r hr hst hage hmem
    have hcond := (List.mem_filter.1 hmem).2
    rw [Bool.not_eq_eq_eq_not, Bool.not_true] at hcond
    unfold retentionDelete at hcond
    rw [hst] at hcond
    simp at hcond
    omega

/-- Witness for C8: a concrete cancelled row is deleted. -/
theorem c8_retention_correctness_witness :
    ({ notification_id := 1, user_id := 7, anilist_id := 5, episode_number := 3,
       airing_at := 100, notify_at := 50, status := Status.cancelled,
       sent_at := none, error_message := none } : Notification) ∉
      (delete_old_notifications 0 30
        [{ notification_id := 1, user_id := 7, anilist_id := 5,
           episode_number := 3, airing_at := 100, notify_at := 50,
           status := .cancelled, sent_at := none, error_message := none }]).1 :=
  (c8_retention_correctness 0 30
    [{ notification_id := 1, user_id := 7, anilist_id := 5,
       episode_number := 3, airing_at := 100, notify_at := 50,
       status := .cancelled, sent_at := none, error_message := none }]).1
    _ (List.mem_singleton.2 rfl) rfl

/-! ### Batch scheduling driver -/

theorem distinctKeepFirst_loop_mem (l : List Nat) :
    ∀ (acc : List Nat) (x : Nat),
      (x ∈ l.foldl (fun acc a => if acc.contains a then acc else acc ++ [a]) acc) ↔
        (x ∈ acc ∨ x ∈ l) := by
  induction l with
  | nil =>
    intro acc x
    simp
  | cons a t ih =>
    intro acc x
    rw [List.foldl_cons]
    by_cases h : acc.contains a = true
    · rw [if_pos h, ih]
      constructor
      · rintro (hx | hx)
        · exact Or.inl hx
        · exact Or.inr (List.mem_cons_of_mem _ hx)
      · rintro (hx | hx)
        · exact Or.inl hx
        · rcases List.mem_cons.1 hx with h1 | h2
          · subst h1
            exact Or.inl (List.elem_iff.1 h)
          · exact Or.inr h2
    · rw [if_neg h, ih]
      constructor
      · rintro (hx | hx)
        · rcases List.mem_append.1 hx with h1 | h2
          · exact Or.inl h1
          · rw [List.mem_singleton.1 h2]
            exact Or.inr (List.mem_cons_self _ _)
        · exact Or.inr (List.mem_cons_of_mem _ hx)
      · rintro (hx | hx)
        · exact Or.inl (List.mem_append_left _ hx)
        · rcases List.mem_cons.1 hx with h1 | h2
          · subst h1
            exact Or.inl (List.mem_append_right _ (List.mem_singleton.2 rfl))
          · exact Or.inr h2

theorem distinctKeepFirst_loop_nodup (l : List Nat) :
    ∀ acc : List Nat, acc.Nodup →
      (l.foldl (fun acc a => if acc.contains a then acc else acc ++ [a]) acc).Nodup := by
  induction l with
  | nil => intro acc h; exact h
  | cons a t ih =>
    intro acc h
    rw [List.foldl_cons]
    by_cases hc : acc.contains a = true
    · rw [if_pos hc]
      exact ih acc h
    · rw [if_neg hc]
      apply ih
      rw [List.nodup_append]
      refine ⟨h, List.nodup_singleton _, ?_⟩
      intro x hx hx2
      rw [List.mem_singleton.1 hx2] at hx
      exact hc (List.elem_iff.2 hx)

theorem mem_distinctKeepFirst {l : List Nat} {x : Nat} :
    x ∈ distinctKeepFirst l ↔ x ∈ l := by
  unfold distinctKeepFirst
  rw [distinctKeepFirst_loop_mem]
  simp

theorem nodup_distinctKeepFirst (l : List Nat) : (distinctKeepFirst l).Nodup :=
  distinctKeepFirst_loop_nodup l [] List.nodup_nil

theorem handleStep_attempted (runOne : Nat → Except String ScheduleResult)
    (acc : HandleResult) (aid : Nat) :
    (handleStep runOne acc aid).attempted = acc.attempted ++ [aid] := by
  unfold handleStep
  cases runOne aid <;> rfl

theorem handleLoop_attempted (runOne : Nat → Except String ScheduleResult)
    (L : List Nat) :
    ∀ acc : HandleResult,
      (L.foldl (handleStep runOne) acc).attempted = acc.attempted ++ L := by
  induction L with
  | nil =>
    intro acc
    simp
  | cons a t ih =>
    intro acc
    rw [List.foldl_cons, ih, handleStep_attempted]
    simp

/-- C9 counterexample: the batch driver enumerates a show whose only
follower has `watch_status = completed` (not a live follower) — the
enumeration filters only on a non-empty `notify_email` and ignores
`watch_status`, so it is not the set of shows with at least one live
follower. -/
theorem c9_enumeration_counterexample :
    followed_anime_ids
        [{ user_id := 1, anilist_id := 5, notify_email := "a@b",
           watch_status := .completed }] 100 = [5] ∧
    isLiveFollow
        [{ user_id := 1, anilist_id := 5, notify_email := "a@b",
           watch_status := .completed }] 1 5 = false :=
  ⟨rfl, rfl⟩

/-- C9 amended: each run of the scheduling command enumerates exactly the
distinct show ids having at least one follower with a non-empty notify
channel (regardless of watch status) — every enumerated id has such a
follower, and conversely every show id with such a follower is enumerated
unless the run is already full at the configured limit (default 100); the
enumeration has no duplicates and at most `limit` entries, and the loop
attempts the per-show scheduling for every enumerated id no matter which
per-show calls raise — a failure on one show never aborts the rest. -/
theorem c9_batch_driver_amended :
    (∀ (follows : List Follow) (limit : Nat),
      ∀ a ∈ followed_anime_ids follows limit,
        ∃ f ∈ follows, f.anilist_id = a ∧ f.notify_email ≠ "") ∧
    (∀ (follows : List Follow) (limit : Nat), ∀ f ∈ follows,
      f.notify_email ≠ "" →
        f.anilist_id ∈ followed_anime_ids follows limit ∨
        (followed_anime_ids follows limit).length = limit) ∧
    (∀ (follows : List Follow) (limit : Nat),
      (followed_anime_ids follows limit).Nodup ∧
      (followed_anime_ids follows limit).length ≤ limit) ∧
    (∀ (follows : List Follow) (limit : Nat)
        (runOne : Nat → Except String ScheduleResult),
      (schedule_command_handle follows limit runOne).attempted =
        followed_anime_ids follows limit) := by
  refine ⟨?_, ?_, ?_, ?_⟩
  · intro follows limit a ha
    unfold followed_anime_ids at ha
    have hmem := (List.take_sublist limit _).subset ha
    rw [mem_distinctKeepFirst] at hmem
    obtain ⟨f, hf, hfa⟩ := List.mem_map.1 hmem
    have hcond := (List.mem_filter.1 hf).2
    rw [bne_iff_ne] at hcond
    exact ⟨f, (List.mem_filter.1 hf).1, hfa, hcond⟩
  · intro follows limit f hf hemail
    have hfd : f.anilist_id ∈ distinctKeepFirst
        ((follows.filter fun f2 => f2.notify_email != "").map Follow.anilist_id) := by
      rw [mem_distinctKeepFirst]
      apply List.mem_map_of_mem
      apply List.mem_filter.2
      exact ⟨hf, bne_iff_ne.2 hemail⟩
    unfold followed_anime_ids
    by_cases hlen : (distinctKeepFirst
        ((follows.filter fun f2 => f2.notify_email != "").map
          Follow.anilist_id)).length ≤ limit
    · left
      rw [List.take_of_length_le hlen]
      exact hfd
    · right
      rw [List.length_take]
      exact Nat.min_eq_left (by omega)
  · intro follows limit
    constructor
    · unfold followed_anime_ids
      exact List.Nodup.sublist (List.take_sublist _ _) (nodup_distinctKeepFirst _)
    · unfold followed_anime_ids
      rw [List.length_take]
      exact Nat.min_le_left _ _
  · intro follows limit runOne
    unfold schedule_command_handle
    rw [handleLoop_attempted]
    simp

/-- Witness for C9 amended: with a per-show call that always raises, the
loop still attempts every enumerated show id. -/
theorem c9_batch_driver_amended_witness :
    (schedule_command_handle
        [{ user_id := 1, anilist_id := 5, notify_email := "a@b",
           watch_status := .completed }] 100
        (fun _ => Except.error "boom")).attempted =
      followed_anime_ids
        [{ user_id := 1, anilist_id := 5, notify_email := "a@b",
           watch_status := .completed }] 100 :=
  c9_batch_driver_amended.2.2.2
    [{ user_id := 1, anilist_id := 5, notify_email := "a@b",
       watch_status := .completed }] 100 (fun _ => Except.error "boom")

end MyAnilist
